import Mathlib

/-!
# LTC2946 driver for Teensy: register transport and measurement engine

A shallow embedding of `LTC2946.cpp`.

* Machine integers are natural numbers holding the bit pattern of the object
  (`int8_t`/`uint8_t` below `2^8`, `uint16_t` below `2^16`, `uint32_t`/`int32_t` below `2^32`);
  bitwise operators act on the patterns.
* The `i2c_t3` objects `Wire`, `Wire1`, `Wire2`, `Wire3` are an external collaborator.  Each is
  modelled as a small state machine (`TwoWire`) in front of an arbitrary device (`Device`), and it
  records every bus transaction in a trace.
* `float` arithmetic is a parameter (`FloatArith`); `Binary32` further down is the IEEE-754
  single precision instance used on the Teensy.
* Names declared in `LTC2946.h` (register offsets, control codes, lsb constants) are the fields
  of `Header`.
* Locals that the source leaves uninitialised get their initial content from `Uninit`.
-/

namespace LTC2946

/-! ## Machine integers -/

/-- Conversion of an `int` to `uint8_t`: the value modulo `2^8`. -/
def toU8 (x : Int) : Nat := (x % 256).toNat

/-- A `uint8_t` argument or object holding the natural number `n`. -/
def u8 (n : Nat) : Nat := n % 256

/-- A `uint16_t` object holding the natural number `n`. -/
def u16 (n : Nat) : Nat := n % 2 ^ 16

/-- A `uint32_t` / `int32_t` object holding the natural number `n` (its bit pattern). -/
def u32 (n : Nat) : Nat := n % 2 ^ 32

/-- Byte `i` of the integer `word`, counted from the least significant byte. -/
def byteAt (word i : Nat) : Nat := word / 256 ^ i % 256

/-- Storage of an `n`-byte union after its integer member is assigned `word`: on the
little-endian Cortex-M4 host the byte member `b[i]` / `MY_byte[i]` is byte `i` of the integer. -/
def unionOfWord (n word : Nat) : List Nat := (List.range n).map (byteAt word)

/-- Reading the integer member (`data.w`, `data.MY_int32`) of a union from its storage. -/
def wordOfUnion (bytes : List Nat) : Nat := bytes.foldr (fun b acc => b + 256 * acc) 0

/-! ## Bus transport (`i2c_t3`) -/

/-- One transaction seen on the bus. -/
inductive BusEvent where
  | tx (addr : Nat) (bytes : List Nat) (sendStop : Bool) (ack : Nat)
  | rx (addr : Nat) (count : Nat) (bytes : List Nat)
deriving DecidableEq, Repr

/-- The device on the other end of a bus: how it answers an addressed write (the status code
that `endTransmission` reports) and an addressed read (the bytes it delivers). -/
structure Device (δ : Type) where
  transmit : δ → Nat → List Nat → Bool → δ × Nat
  request : δ → Nat → Nat → δ × List Nat

/-- State of one `Wire` object together with the device attached to it. -/
structure TwoWire (δ : Type) where
  dev : δ
  txAddr : Nat
  txBuf : List Nat
  rxBuf : List Nat
  trace : List BusEvent

namespace TwoWire

variable {δ : Type}

/-- `Wire.beginTransmission(address)`. -/
def beginTransmission (b : TwoWire δ) (addr : Nat) : TwoWire δ :=
  { b with txAddr := u8 addr, txBuf := [] }

/-- `Wire.write(byte)`. -/
def write (b : TwoWire δ) (byte : Nat) : TwoWire δ :=
  { b with txBuf := b.txBuf ++ [u8 byte] }

/-- `Wire.endTransmission(sendStop)`: the queued bytes go out and the `uint8_t` status is
returned (0 = success). -/
def endTransmission (D : Device δ) (b : TwoWire δ) (sendStop : Bool) : Nat × TwoWire δ :=
  let r := D.transmit b.dev b.txAddr b.txBuf sendStop
  let ack := u8 r.2
  (ack, { b with dev := r.1, txBuf := [],
                 trace := b.trace ++ [BusEvent.tx b.txAddr b.txBuf sendStop ack] })

/-- `Wire.requestFrom(address, count)`: at most `count` bytes are received into the buffer. -/
def requestFrom (D : Device δ) (b : TwoWire δ) (addr count : Nat) : TwoWire δ :=
  let r := D.request b.dev (u8 addr) count
  let bytes := (r.2.take count).map u8
  { b with dev := r.1, rxBuf := bytes,
           trace := b.trace ++ [BusEvent.rx (u8 addr) count bytes] }

/-- `Wire.read()`: the next received byte, or `-1` when the buffer is empty. -/
def read (b : TwoWire δ) : Int × TwoWire δ :=
  match b.rxBuf with
  | [] => (-1, b)
  | x :: rest => ((x : Int), { b with rxBuf := rest })

end TwoWire

/-- The four bus objects `Wire`, `Wire1`, `Wire2`, `Wire3` (indices 0 to 3). -/
abbrev World (δ : Type) := Nat → TwoWire δ

/-! ## Driver state -/

/-- Names the driver takes from `LTC2946.h`. -/
structure Header (F : Type) where
  LTC2946_CTRLA_REG : Nat
  LTC2946_STATUS2_REG : Nat
  LTC2946_VIN_MSB_REG : Nat
  LTC2946_DELTA_SENSE_MSB_REG : Nat
  LTC2946_POWER_MSB2_REG : Nat
  CTRLA : Nat
  LTC2946_CHANNEL_CONFIG_SNAPSHOT : Nat
  LTC2946_VDD : Nat
  LTC2946_DELTA_SENSE : Nat
  LTC2946_VIN_lsb : F
  LTC2946_ADIN_lsb : F
  LTC2946_DELTA_SENSE_lsb : F
  LTC2946_Power_lsb : F
  LTC2946_TIME_lsb : F
  resistor : F

/-- The `float` operations the driver uses. -/
structure FloatArith (F : Type) where
  ofNat : Nat → F
  mul : F → F → F
  div : F → F → F

/-- Data members of class `LTC2946` (declared in `LTC2946.h`).  `I2C_ACK` holds the bit pattern
of the error flag and is taken to have the width of the `int8_t` acks that are OR-ed into it;
`LTC2946_mode` is 0 for continuous and 1 for snapshot acquisition. -/
structure Driver (F : Type) where
  I2C_WIRE : Nat
  I2C_ADDRESS : Nat
  I2C_ACK : Nat
  LTC2946_mode : Nat
  use_conversion : Bool
  use_legacy : Bool
  VIN_CONST : F
  CURRENT_CONST : F
  POWER_CONST : F

/-- Initial content of the locals the source declares without an initialiser. -/
structure Uninit where
  ack : Nat
  data : Nat
  code : Nat
  busy : Nat

/-! ## Error flag and configuration -/

/-- `LTC2946::ErrorCheck`. -/
def ErrorCheck {F : Type} (s : Driver F) : Bool × Driver F :=
  if s.I2C_ACK = 0 then
    (true, s)
  else
    (false, { s with I2C_ACK := 0 })

/-- `LTC2946::SetVINConst`. -/
def SetVINConst {F : Type} (s : Driver F) (vin_const : F) : Driver F :=
  { s with VIN_CONST := vin_const }

/-- `LTC2946::SetAmperageConst`. -/
def SetAmperageConst {F : Type} (s : Driver F) (i_const : F) : Driver F :=
  { s with CURRENT_CONST := i_const }

/-- `LTC2946::SetPowerConst`. -/
def SetPowerConst {F : Type} (s : Driver F) (w_const : F) : Driver F :=
  { s with POWER_CONST := w_const }

/-- `LTC2946::SetSnapShot`. -/
def SetSnapShot {F : Type} (s : Driver F) : Driver F :=
  { s with LTC2946_mode := 1 }

/-- `LTC2946::EnableConversion`. -/
def EnableConversion {F : Type} (s : Driver F) (state : Bool) : Driver F :=
  { s with use_conversion := state }

/-- `LTC2946::EnableLegacy`. -/
def EnableLegacy {F : Type} (s : Driver F) (state : Bool) : Driver F :=
  { s with use_legacy := state }

/-! ## Register transport

In every primitive the source repeats the same statements four times, once per bus object, under
`if(I2C_WIRE == 0) ... else if(I2C_WIRE == 3)`.  The model runs them on bus `I2C_WIRE` when
`I2C_WIRE < 4`; otherwise no branch runs and the uninitialised locals are returned. -/

section Transport

variable {δ F : Type} (D : Device δ) (u : Uninit)

/-- `LTC2946::LTC2946_write`: write an 8-bit code.  Returns `(ack, world)`. -/
def LTC2946_write (s : Driver F) (adc_command code : Nat) (w : World δ) : Nat × World δ :=
  if s.I2C_WIRE < 4 then
    let b1 := (w s.I2C_WIRE).beginTransmission s.I2C_ADDRESS
    let b2 := b1.write adc_command
    let b3 := b2.write code
    let r := b3.endTransmission D false
    (r.1, Function.update w s.I2C_WIRE r.2)
  else
    (u8 u.ack, w)

/-- `LTC2946::LTC2946_write_16_bits`. -/
def LTC2946_write_16_bits (s : Driver F) (adc_command code : Nat) (w : World δ) :
    Nat × World δ :=
  let data := unionOfWord 2 (u16 code)
  if s.I2C_WIRE < 4 then
    let b1 := (w s.I2C_WIRE).beginTransmission s.I2C_ADDRESS
    let b2 := b1.write adc_command
    let b3 := b2.write (data.getD 1 0)
    let b4 := b3.write (data.getD 0 0)
    let r := b4.endTransmission D false
    (r.1, Function.update w s.I2C_WIRE r.2)
  else
    (u8 u.ack, w)

/-- `LTC2946::LTC2946_write_24_bits`. -/
def LTC2946_write_24_bits (s : Driver F) (adc_command code : Nat) (w : World δ) :
    Nat × World δ :=
  let data := unionOfWord 4 (u32 code)
  if s.I2C_WIRE < 4 then
    let b1 := (w s.I2C_WIRE).beginTransmission s.I2C_ADDRESS
    let b2 := b1.write adc_command
    let b3 := b2.write (data.getD 2 0)
    let b4 := b3.write (data.getD 1 0)
    let b5 := b4.write (data.getD 0 0)
    let r := b5.endTransmission D false
    (r.1, Function.update w s.I2C_WIRE r.2)
  else
    (u8 u.ack, w)

/-- `LTC2946::LTC2946_write_32_bits`. -/
def LTC2946_write_32_bits (s : Driver F) (adc_command code : Nat) (w : World δ) :
    Nat × World δ :=
  let data := unionOfWord 4 (u32 code)
  if s.I2C_WIRE < 4 then
    let b1 := (w s.I2C_WIRE).beginTransmission s.I2C_ADDRESS
    let b2 := b1.write adc_command
    let b3 := b2.write (data.getD 3 0)
    let b4 := b3.write (data.getD 2 0)
    let b5 := b4.write (data.getD 1 0)
    let b6 := b5.write (data.getD 0 0)
    let r := b6.endTransmission D false
    (r.1, Function.update w s.I2C_WIRE r.2)
  else
    (u8 u.ack, w)

/-- `LTC2946::LTC2946_read`: read an 8-bit code.  `adc_code` is the content of `*adc_code`
before the call; the result is `(ack, *adc_code, world)`. -/
def LTC2946_read (s : Driver F) (adc_command adc_code : Nat) (w : World δ) :
    Nat × Nat × World δ :=
  if s.I2C_WIRE < 4 then
    let b1 := (w s.I2C_WIRE).beginTransmission s.I2C_ADDRESS
    let b2 := b1.write adc_command
    let r := b2.endTransmission D false
    let b3 := r.2.requestFrom D s.I2C_ADDRESS 1
    let x := b3.read
    (r.1, toU8 x.1, Function.update w s.I2C_WIRE x.2)
  else
    (u8 u.ack, adc_code, w)

/-- `LTC2946::LTC2946_read_12_bits`.  The result is `(ack, *adc_code, world)`. -/
def LTC2946_read_12_bits (s : Driver F) (adc_command : Nat) (w : World δ) :
    Nat × Nat × World δ :=
  let data := unionOfWord 2 (u16 u.data)
  if s.I2C_WIRE < 4 then
    let b1 := (w s.I2C_WIRE).beginTransmission s.I2C_ADDRESS
    let b2 := b1.write adc_command
    let r := b2.endTransmission D false
    let b3 := r.2.requestFrom D s.I2C_ADDRESS 2
    let x := b3.read
    let data := data.set 1 (toU8 x.1)
    let y := x.2.read
    let data := data.set 0 (toU8 y.1)
    let adc_code := wordOfUnion data
    (r.1, u16 (adc_code >>> 4), Function.update w s.I2C_WIRE y.2)
  else
    let adc_code := wordOfUnion data
    (u8 u.ack, u16 (adc_code >>> 4), w)

/-- `LTC2946::LTC2946_read_16_bits`. -/
def LTC2946_read_16_bits (s : Driver F) (adc_command : Nat) (w : World δ) :
    Nat × Nat × World δ :=
  let data := unionOfWord 2 (u16 u.data)
  if s.I2C_WIRE < 4 then
    let b1 := (w s.I2C_WIRE).beginTransmission s.I2C_ADDRESS
    let b2 := b1.write adc_command
    let r := b2.endTransmission D false
    let b3 := r.2.requestFrom D s.I2C_ADDRESS 2
    let x := b3.read
    let data := data.set 1 (toU8 x.1)
    let y := x.2.read
    let data := data.set 0 (toU8 y.1)
    (r.1, wordOfUnion data, Function.update w s.I2C_WIRE y.2)
  else
    (u8 u.ack, wordOfUnion data, w)

/-- `LTC2946::LTC2946_read_24_bits`.  Only bytes 2, 1, 0 of the union are written; byte 3 keeps
its initial content.  `0x0FFFFFF & data.MY_int32` is taken on the bit patterns. -/
def LTC2946_read_24_bits (s : Driver F) (adc_command : Nat) (w : World δ) :
    Nat × Nat × World δ :=
  let data := unionOfWord 4 (u32 u.data)
  if s.I2C_WIRE < 4 then
    let b1 := (w s.I2C_WIRE).beginTransmission s.I2C_ADDRESS
    let b2 := b1.write adc_command
    let r := b2.endTransmission D false
    let b3 := r.2.requestFrom D s.I2C_ADDRESS 3
    let x := b3.read
    let data := data.set 2 (toU8 x.1)
    let y := x.2.read
    let data := data.set 1 (toU8 y.1)
    let z := y.2.read
    let data := data.set 0 (toU8 z.1)
    (r.1, u32 (0x0FFFFFF &&& wordOfUnion data), Function.update w s.I2C_WIRE z.2)
  else
    (u8 u.ack, u32 (0x0FFFFFF &&& wordOfUnion data), w)

/-- `LTC2946::LTC2946_read_32_bits`. -/
def LTC2946_read_32_bits (s : Driver F) (adc_command : Nat) (w : World δ) :
    Nat × Nat × World δ :=
  let data := unionOfWord 4 (u32 u.data)
  if s.I2C_WIRE < 4 then
    let b1 := (w s.I2C_WIRE).beginTransmission s.I2C_ADDRESS
    let b2 := b1.write adc_command
    let r := b2.endTransmission D false
    let b3 := r.2.requestFrom D s.I2C_ADDRESS 4
    let x := b3.read
    let data := data.set 3 (toU8 x.1)
    let y := x.2.read
    let data := data.set 2 (toU8 y.1)
    let z := y.2.read
    let data := data.set 1 (toU8 z.1)
    let t := z.2.read
    let data := data.set 0 (toU8 t.1)
    (r.1, u32 (0xFFFFFFFF &&& wordOfUnion data), Function.update w s.I2C_WIRE t.2)
  else
    (u8 u.ack, u32 (0xFFFFFFFF &&& wordOfUnion data), w)

end Transport

/-! ## Measurement engine -/

section Engine

variable {δ F : Type} (H : Header F) (A : FloatArith F) (D : Device δ) (u : Uninit)

/-- `Wire.begin()`: the bus object starts with empty buffers. -/
def TwoWire.begin (b : TwoWire δ) : TwoWire δ :=
  { b with txBuf := [], rxBuf := [] }

/-- `LTC2946::Setup`. -/
def Setup (s : Driver F) (w : World δ) : World δ :=
  if s.I2C_WIRE < 4 then Function.update w s.I2C_WIRE (w s.I2C_WIRE).begin else w

/-- `LTC2946::LTC2946_VIN_code_to_voltage`. -/
def LTC2946_VIN_code_to_voltage (adc_code : Nat) : F :=
  let voltage := A.mul (A.ofNat adc_code) H.LTC2946_VIN_lsb
  voltage

/-- `LTC2946::LTC2946_ADIN_code_to_voltage`. -/
def LTC2946_ADIN_code_to_voltage (adc_code : Nat) : F :=
  let adc_voltage := A.mul (A.ofNat adc_code) H.LTC2946_ADIN_lsb
  adc_voltage

/-- `LTC2946::LTC2946_code_to_current`. -/
def LTC2946_code_to_current (adc_code : Nat) : F :=
  let voltage := A.mul (A.ofNat adc_code) H.LTC2946_DELTA_SENSE_lsb
  let current := A.div voltage H.resistor
  current

/-- `LTC2946::SetContinuous`. -/
def SetContinuous (s : Driver F) (w : World δ) : Driver F × World δ :=
  let s1 := { s with LTC2946_mode := 0 }
  let r := LTC2946_write D u s1 H.LTC2946_CTRLA_REG H.CTRLA w
  let ack := r.1
  ({ s1 with I2C_ACK := s1.I2C_ACK ||| ack }, r.2)

/-- The loop `do { ack |= LTC2946_read(LTC2946_STATUS2_REG, &busy); } while (0x8 & busy);`
of the snapshot requests, run for at most `fuel` iterations; `none` when the busy bit is still
set after `fuel` reads.  The result is `(ack, busy, world)`. -/
def pollBusy (s : Driver F) : Nat → Nat → Nat → World δ → Option (Nat × Nat × World δ)
  | 0, _, _, _ => none
  | fuel + 1, ack, busy, w =>
    let r := LTC2946_read D u s H.LTC2946_STATUS2_REG busy w
    let ack := ack ||| r.1
    let busy := r.2.1
    if 0x8 &&& busy ≠ 0 then pollBusy s fuel ack busy r.2.2 else some (ack, busy, r.2.2)

/-- The buses as the loop of `pollBusy` leaves them once it has ended or has made `fuel`
status reads, whichever comes first. -/
def pollReach (s : Driver F) : Nat → Nat → World δ → World δ
  | 0, _, w => w
  | fuel + 1, busy, w =>
    let r := LTC2946_read D u s H.LTC2946_STATUS2_REG busy w
    let busy := r.2.1
    if 0x8 &&& busy ≠ 0 then pollReach s fuel busy r.2.2 else r.2.2

/-- Snapshot request of `ReadVIN` / `ReadCurrent` for the channel code `channel`
(`LTC2946_VDD` or `LTC2946_DELTA_SENSE`) and measurement register `reg`: trigger write, busy
poll, 12-bit read.  The result is `(ack, code, world)`. -/
def snapshotRequest (fuel : Nat) (s : Driver F) (channel reg ack : Nat) (w : World δ) :
    Option (Nat × Nat × World δ) :=
  let LTC2946_mode := u8 (H.LTC2946_CHANNEL_CONFIG_SNAPSHOT ||| channel)
  let r := LTC2946_write D u s H.LTC2946_CTRLA_REG LTC2946_mode w
  let ack := ack ||| r.1
  match pollBusy H D u s fuel ack (u8 u.busy) r.2 with
  | none => none
  | some p =>
    let q := LTC2946_read_12_bits D u s reg p.2.2
    some (p.1 ||| q.1, q.2.1, q.2.2)

/-- `LTC2946::ReadVIN`.  The result is `(VIN_Return, driver, world)`; `none` when the busy poll
does not end within `fuel` status reads. -/
def ReadVIN (fuel : Nat) (s : Driver F) (w : World δ) : Option (F × Driver F × World δ) :=
  let ack := 0
  let VIN_code := u16 u.code
  let acquired : Option (Nat × Nat × World δ) :=
    if s.LTC2946_mode = 0 then
      let q := LTC2946_read_12_bits D u s H.LTC2946_VIN_MSB_REG w
      some (ack ||| q.1, q.2.1, q.2.2)
    else if s.LTC2946_mode = 1 then
      snapshotRequest H D u fuel s H.LTC2946_VDD H.LTC2946_VIN_MSB_REG ack w
    else
      some (ack, VIN_code, w)
  match acquired with
  | none => none
  | some (ack, VIN_code, w1) =>
    let VIN_Return :=
      if s.use_conversion then
        if s.use_legacy then
          LTC2946_VIN_code_to_voltage H A VIN_code
        else
          A.mul (A.ofNat VIN_code) s.VIN_CONST
      else
        A.ofNat VIN_code
    some (VIN_Return, { s with I2C_ACK := s.I2C_ACK ||| ack }, w1)

/-- `LTC2946::ReadCurrent`. -/
def ReadCurrent (fuel : Nat) (s : Driver F) (w : World δ) : Option (F × Driver F × World δ) :=
  let ack := 0
  let current_code := u16 u.code
  let acquired : Option (Nat × Nat × World δ) :=
    if s.LTC2946_mode = 0 then
      let q := LTC2946_read_12_bits D u s H.LTC2946_DELTA_SENSE_MSB_REG w
      some (ack ||| q.1, q.2.1, q.2.2)
    else if s.LTC2946_mode = 1 then
      snapshotRequest H D u fuel s H.LTC2946_DELTA_SENSE H.LTC2946_DELTA_SENSE_MSB_REG ack w
    else
      some (ack, current_code, w)
  match acquired with
  | none => none
  | some (ack, current_code, w1) =>
    let current_Return :=
      if s.use_conversion then
        if s.use_legacy then
          LTC2946_code_to_current H A current_code
        else
          A.mul (A.ofNat current_code) s.CURRENT_CONST
      else
        A.ofNat current_code
    some (current_Return, { s with I2C_ACK := s.I2C_ACK ||| ack }, w1)

/-- `LTC2946::ReadPower`.  The result is `(power_Return, driver, world)`. -/
def ReadPower (s : Driver F) (w : World δ) : F × Driver F × World δ :=
  let ack := 0
  let power_code := u32 u.code
  let power_Return := A.ofNat 0
  let acquired : Nat × Nat × World δ :=
    if s.LTC2946_mode = 0 then
      let q := LTC2946_read_24_bits D u s H.LTC2946_POWER_MSB2_REG w
      (ack ||| q.1, q.2.1, q.2.2)
    else if s.LTC2946_mode = 1 then
      (ack, power_code, w)
    else
      (ack, power_code, w)
  let ack := acquired.1
  let power_code := acquired.2.1
  let power_Return :=
    if s.use_conversion then
      if s.use_legacy then
        power_Return
      else
        A.mul (A.ofNat power_code) s.POWER_CONST
    else
      A.ofNat power_code
  (power_Return, { s with I2C_ACK := s.I2C_ACK ||| ack }, acquired.2.2)

/-- The caller-facing operations of the driver other than `ErrorCheck`. -/
inductive Op (F : Type) where
  | setup
  | setVINConst (c : F)
  | setAmperageConst (c : F)
  | setPowerConst (c : F)
  | setContinuous
  | setSnapShot
  | enableConversion (state : Bool)
  | enableLegacy (state : Bool)
  | readVIN
  | readCurrent
  | readPower

/-- One operation on the driver and the buses; the value a read returns is dropped. -/
def runOp (fuel : Nat) (op : Op F) (st : Driver F × World δ) : Option (Driver F × World δ) :=
  match op with
  | Op.setup => some (st.1, Setup st.1 st.2)
  | Op.setVINConst c => some (SetVINConst st.1 c, st.2)
  | Op.setAmperageConst c => some (SetAmperageConst st.1 c, st.2)
  | Op.setPowerConst c => some (SetPowerConst st.1 c, st.2)
  | Op.setContinuous => some (SetContinuous H D u st.1 st.2)
  | Op.setSnapShot => some (SetSnapShot st.1, st.2)
  | Op.enableConversion b => some (EnableConversion st.1 b, st.2)
  | Op.enableLegacy b => some (EnableLegacy st.1 b, st.2)
  | Op.readVIN => (ReadVIN H A D u fuel st.1 st.2).map Prod.snd
  | Op.readCurrent => (ReadCurrent H A D u fuel st.1 st.2).map Prod.snd
  | Op.readPower => some (ReadPower H A D u st.1 st.2).2

/-- A sequence of operations, first to last. -/
def runOps (fuel : Nat) : List (Op F) → Driver F × World δ → Option (Driver F × World δ)
  | [], st => some st
  | op :: ops, st =>
    match runOp H A D u fuel op st with
    | none => none
    | some st1 => runOps fuel ops st1

end Engine

/-! ## Observations on the bus trace -/

/-- The acknowledgment codes of the addressed writes in a piece of trace, oldest first. -/
def acksOf : List BusEvent → List Nat
  | [] => []
  | BusEvent.tx _ _ _ ack :: evs => ack :: acksOf evs
  | BusEvent.rx _ _ _ :: evs => acksOf evs

/-- Bitwise OR of a list of codes. -/
def orAll (l : List Nat) : Nat := l.foldr (· ||| ·) 0

/-! ## A register-file device

The device of the round-trip property: a byte-addressed register file with an address pointer.
An addressed write sets the pointer from the first byte and stores the following bytes in
consecutive registers; a read delivers consecutive registers from the pointer.  The device
changes no register by itself and acknowledges every write. -/

/-- Registers and address pointer. -/
structure RegFile where
  regs : Nat → Nat
  ptr : Nat

/-- Store `vals` in consecutive registers from offset `reg` (offsets are bytes). -/
def RegFile.store (regs : Nat → Nat) (reg : Nat) : List Nat → Nat → Nat
  | [] => regs
  | v :: vs => RegFile.store (Function.update regs (reg % 256) v) (reg + 1) vs

/-- The register file as a bus device. -/
def regFileDevice : Device RegFile where
  transmit d _ bytes _ :=
    match bytes with
    | [] => (d, 0)
    | reg :: vals => ({ regs := RegFile.store d.regs reg vals, ptr := (reg + vals.length) % 256 }, 0)
  request d _ count :=
    ({ d with ptr := (d.ptr + count) % 256 },
      (List.range count).map fun i => d.regs ((d.ptr + i) % 256))

/-- The bytes the bus hands to a register read of `n` bytes at offset `adc_command`: the
receive buffer after the address write and `requestFrom(I2C_ADDRESS, n)`. -/
def delivered {δ F : Type} (D : Device δ) (s : Driver F) (adc_command n : Nat) (w : World δ) :
    List Nat :=
  let b1 := (w s.I2C_WIRE).beginTransmission s.I2C_ADDRESS
  let b2 := b1.write adc_command
  let r := b2.endTransmission D false
  (r.2.requestFrom D s.I2C_ADDRESS n).rxBuf

/-! ## IEEE-754 single precision

`float` on the Teensy is binary32.  A finite value is the rational number it stands for (the
two zeros are not told apart); infinities and NaN are one value `nonFinite`.  Every operation
is the exact rational operation followed by rounding to nearest, ties to even, with 24
significant bits, gradual underflow below `2^-126` and overflow at `2^128`. -/

/-- Nearest integer, ties to the even one. -/
def roundHalfEven (r : ℚ) : ℤ :=
  let f := ⌊r⌋
  if r - f < 1 / 2 then f
  else if 1 / 2 < r - f then f + 1
  else if f % 2 = 0 then f else f + 1

/-- Values of a `float`.  The operations below only produce rationals that are binary32
numbers; a constant handed in from outside may be any rational. -/
inductive Binary32 where
  | finite (v : ℚ)
  | nonFinite
deriving DecidableEq

namespace Binary32

/-- Spacing of the binary32 numbers around `x`: `2^(e-23)` for `2^e ≤ |x| < 2^(e+1)`, and the
subnormal spacing `2^-149` below `2^-126`. -/
def quantum (x : ℚ) : ℚ := (2 : ℚ) ^ (max (Int.log 2 |x|) (-126) - 23)

/-- Rounding of an exact result to binary32. -/
def round (x : ℚ) : Binary32 :=
  let y := (roundHalfEven (x / quantum x) : ℚ) * quantum x
  if (2 : ℚ) ^ 128 ≤ |y| then nonFinite else finite y

/-- Product of two floats. -/
def mul : Binary32 → Binary32 → Binary32
  | finite x, finite y => round (x * y)
  | _, _ => nonFinite

/-- Quotient of two floats; a zero divisor gives an infinity or NaN.  A non-finite operand
gives `nonFinite` throughout: the quotient of a finite number by an infinity, which IEEE-754
makes a zero, is outside what this model tells apart. -/
def div : Binary32 → Binary32 → Binary32
  | finite x, finite y => if y = 0 then nonFinite else round (x / y)
  | _, _ => nonFinite

end Binary32

/-- The `float` operations of the target. -/
def binary32 : FloatArith Binary32 where
  ofNat n := Binary32.round n
  mul := Binary32.mul
  div := Binary32.div

/-! ## Concrete inputs -/

/-- Example values for the names of `LTC2946.h`; the lsb constants and the sense resistor are
those of the scenarios: 25.6 mV per code, 0.5 mV per code, 0.01 ohm, as `float` literals. -/
def scenarioHeader : Header Binary32 where
  LTC2946_CTRLA_REG := 0x00
  LTC2946_STATUS2_REG := 0x81
  LTC2946_VIN_MSB_REG := 0x1E
  LTC2946_DELTA_SENSE_MSB_REG := 0x14
  LTC2946_POWER_MSB2_REG := 0x05
  CTRLA := 0x08
  LTC2946_CHANNEL_CONFIG_SNAPSHOT := 0x80
  LTC2946_VDD := 0x08
  LTC2946_DELTA_SENSE := 0x00
  LTC2946_VIN_lsb := Binary32.round (256 / 10000)
  LTC2946_ADIN_lsb := Binary32.round (5 / 10000)
  LTC2946_DELTA_SENSE_lsb := Binary32.round (5 / 10000)
  LTC2946_Power_lsb := Binary32.round (128 / 10000000)
  LTC2946_TIME_lsb := Binary32.round (1 / 100000)
  resistor := Binary32.round (1 / 100)

/-- A driver on channel 0 at address `0x6A`, continuous mode, raw policy, clear error flag. -/
def scenarioDriver : Driver Binary32 where
  I2C_WIRE := 0
  I2C_ADDRESS := 0x6A
  I2C_ACK := 0
  LTC2946_mode := 0
  use_conversion := false
  use_legacy := false
  VIN_CONST := Binary32.finite 1
  CURRENT_CONST := Binary32.finite 1
  POWER_CONST := Binary32.finite 1

/-- Register contents of the scenarios: VIN code 100 (`0x0640` left-justified), delta-sense code
200 (`0x0C80`), power code `0x010203`, every other register 0. -/
def scenarioRegs (r : Nat) : Nat :=
  if r = 0x1E then 0x06 else if r = 0x1F then 0x40
  else if r = 0x14 then 0x0C else if r = 0x15 then 0x80
  else if r = 0x05 then 0x01 else if r = 0x06 then 0x02 else if r = 0x07 then 0x03
  else 0

/-- Four idle buses, each with the scenario register file behind it. -/
def scenarioWorld : World RegFile := fun _ =>
  { dev := { regs := scenarioRegs, ptr := 0 }, txAddr := 0, txBuf := [], rxBuf := [], trace := [] }

/-- Uninitialised locals holding all-ones. -/
def scenarioUninit : Uninit := { ack := 0xFF, data := 0xFFFFFFFF, code := 0xFFFFFFFF, busy := 0xFF }

/-- A device that follows a script: the status codes it answers to successive addressed writes
(0 once the script is used up) and the bytes it delivers to successive reads. -/
structure Script where
  acks : List Nat
  bytes : List Nat

/-- The scripted device as a bus device. -/
def scriptDevice : Device Script where
  transmit d _ _ _ := ({ d with acks := d.acks.tail }, d.acks.headD 0)
  request d _ count := ({ d with bytes := d.bytes.drop count }, d.bytes.take count)

/-- Four idle buses, each with the same script behind it. -/
def scriptWorld (acks bytes : List Nat) : World Script := fun _ =>
  { dev := { acks := acks, bytes := bytes }, txAddr := 0, txBuf := [], rxBuf := [], trace := [] }

/-- The driver after `SetVINConst(cv)`, `SetAmperageConst(ci)`, `SetPowerConst(cp)`,
`EnableConversion(true)`, `EnableLegacy(false)`: the calibrated policy. -/
def calibrated {F : Type} (s : Driver F) (cv ci cp : F) : Driver F :=
  EnableLegacy (EnableConversion (SetPowerConst (SetAmperageConst (SetVINConst s cv) ci) cp)
    true) false

/-! ## A device driven by streams

The device of the busy-poll property: it answers the `i`-th addressed write with the status code
`acks i` and delivers the bytes `bytes 0, bytes 1, ...` in that order, whatever is asked.  During
a snapshot request the bytes it delivers to the status reads are the status bytes. -/

/-- Streams and how far they have been consumed. -/
structure Stream where
  acks : Nat → Nat
  bytes : Nat → Nat
  nTx : Nat
  nRx : Nat

/-- The stream-driven device as a bus device. -/
def streamDevice : Device Stream where
  transmit d _ _ _ := ({ d with nTx := d.nTx + 1 }, d.acks d.nTx)
  request d _ count :=
    ({ d with nRx := d.nRx + count }, (List.range count).map fun i => d.bytes (d.nRx + i))

/-- Four idle buses, each with the same streams behind it. -/
def streamWorld (acks bytes : Nat → Nat) : World Stream := fun _ =>
  { dev := { acks := acks, bytes := bytes, nTx := 0, nRx := 0 },
    txAddr := 0, txBuf := [], rxBuf := [], trace := [] }

/-- The `i`-th byte the device in state `d` is going to deliver has the busy bit `0x8` set. -/
abbrev busyAt (d : Stream) (i : Nat) : Prop := 0x8 &&& (d.bytes (d.nRx + i) % 256) ≠ 0

/-- Streams of the example run: status bytes busy, busy, busy, ready, then the measurement
bytes `0x06`, `0x40`; the second status read is answered with status code 4. -/
def exampleStreams : World Stream :=
  streamWorld (fun i => if i = 2 then 4 else 0)
    (fun i => if i < 3 then 0x08 else if i = 3 then 0x00 else if i = 4 then 0x06 else 0x40)

/-- Bus events of `n` consecutive one-byte reads of register `reg`, the first of them answered
with `acks a` and `bytes b`. -/
def pollEvents (addr reg : Nat) (acks bytes : Nat → Nat) : Nat → Nat → Nat → List BusEvent
  | _, _, 0 => []
  | a, b, n + 1 =>
    BusEvent.tx addr [reg] false (acks a % 256) :: BusEvent.rx addr 1 [bytes b % 256] ::
      pollEvents addr reg acks bytes (a + 1) (b + 1) n

/-- Bus events of a snapshot request whose `k + 1` status reads are answered by the stream
device in state `d`: the trigger write of `trig` to `ctrlReg`, the `k + 1` reads of
`statusReg`, one two-byte read of `measReg`. -/
def snapshotEvents (addr ctrlReg trig statusReg measReg : Nat) (d : Stream) (k : Nat) :
    List BusEvent :=
  BusEvent.tx addr [ctrlReg % 256, trig % 256] false (d.acks d.nTx % 256) ::
    (pollEvents addr (statusReg % 256) d.acks d.bytes (d.nTx + 1) d.nRx (k + 1) ++
      [BusEvent.tx addr [measReg % 256] false (d.acks (d.nTx + k + 2) % 256),
       BusEvent.rx addr 2 [d.bytes (d.nRx + k + 1) % 256, d.bytes (d.nRx + k + 2) % 256]])

/-! ## Relations used in the statements -/

/-- From `w` to `w1` the trace of bus `k` grew by transactions whose acks OR to `ack`. -/
def Accum {δ : Type} (k : Nat) (w w1 : World δ) (ack : Nat) : Prop :=
  ∃ evs, (w1 k).trace = (w k).trace ++ evs ∧ orAll (acksOf evs) = ack

/-- From `st` to `st1` the bus selector is kept and the error flag is OR-ed with some code `a`;
on a driver attached to one of the four buses, `a` is the OR of the acks of the transactions
added to that bus. -/
def Step {δ F : Type} (st st1 : Driver F × World δ) : Prop :=
  st1.1.I2C_WIRE = st.1.I2C_WIRE ∧
  ∃ a, st1.1.I2C_ACK = st.1.I2C_ACK ||| a ∧
    (st.1.I2C_WIRE < 4 → Accum st.1.I2C_WIRE st.2 st1.2 a)

/-- Drivers `s` and `s1` agree on every member other than the error flag `I2C_ACK`. -/
def SameConfig {F : Type} (s s1 : Driver F) : Prop :=
  s1.I2C_WIRE = s.I2C_WIRE ∧ s1.I2C_ADDRESS = s.I2C_ADDRESS ∧
  s1.LTC2946_mode = s.LTC2946_mode ∧
  s1.use_conversion = s.use_conversion ∧ s1.use_legacy = s.use_legacy ∧
  s1.VIN_CONST = s.VIN_CONST ∧ s1.CURRENT_CONST = s.CURRENT_CONST ∧
  s1.POWER_CONST = s.POWER_CONST

/-! ## Error flag: check and clear -/

/-- C1 (as stated, refuted): with a pending error (`I2C_ACK = 1`) `ErrorCheck` returns `false`,
and with a clear flag it returns `true`; the returned value is not "an error occurred". -/
theorem ErrorCheck_polarity_counterexample :
    (ErrorCheck { scenarioDriver with I2C_ACK := 1 }).1 = false ∧
    ({ scenarioDriver with I2C_ACK := 1 } : Driver Binary32).I2C_ACK ≠ 0 ∧
    (ErrorCheck scenarioDriver).1 = true ∧ scenarioDriver.I2C_ACK = 0 := by
  decide

/-- C1 (amended): `ErrorCheck` returns `true` exactly when no nonzero ack is pending
(`I2C_ACK = 0`) and `false` exactly when one is; after the call `I2C_ACK` is 0, and no other
member of the driver has changed. -/
theorem ErrorCheck_true_iff_clear {F : Type} (s : Driver F) :
    ((ErrorCheck s).1 = true ↔ s.I2C_ACK = 0) ∧
    ((ErrorCheck s).1 = false ↔ s.I2C_ACK ≠ 0) ∧
    (ErrorCheck s).2.I2C_ACK = 0 ∧
    (ErrorCheck s).2 = { s with I2C_ACK := 0 } := by
  obtain ⟨wire, addr, flag, mode, conv, leg, cv, cc, cp⟩ := s
  by_cases h : flag = 0
  · subst h
    simp [ErrorCheck]
  · simp [ErrorCheck, h]

/-- C2 (as stated, refuted): with a pending error two consecutive calls return `false` then
`true`, the pair the claim excludes; with a clear flag they return `true` then `true`. -/
theorem ErrorCheck_twice_counterexample :
    (ErrorCheck { scenarioDriver with I2C_ACK := 1 }).1 = false ∧
    (ErrorCheck (ErrorCheck { scenarioDriver with I2C_ACK := 1 }).2).1 = true ∧
    (ErrorCheck scenarioDriver).1 = true ∧
    (ErrorCheck (ErrorCheck scenarioDriver).2).1 = true := by
  decide

/-- C2 (amended): for every initial value of the error flag, two consecutive calls of
`ErrorCheck` return `(true, true)` when the flag was clear and `(false, true)` when an error
was pending; the second call always returns `true`, and the second call changes nothing. -/
theorem ErrorCheck_twice {F : Type} (s : Driver F) :
    (s.I2C_ACK = 0 → (ErrorCheck s).1 = true ∧ (ErrorCheck (ErrorCheck s).2).1 = true) ∧
    (s.I2C_ACK ≠ 0 → (ErrorCheck s).1 = false ∧ (ErrorCheck (ErrorCheck s).2).1 = true) ∧
    (ErrorCheck (ErrorCheck s).2).1 = true ∧
    (ErrorCheck (ErrorCheck s).2).2 = (ErrorCheck s).2 := by
  by_cases h : s.I2C_ACK = 0
  · simp [ErrorCheck, h]
  · simp [ErrorCheck, h]

/-! ## Transport: byte assembly -/

theorem toU8_natCast (x : Nat) (h : x < 256) : toU8 (x : Int) = x := by
  unfold toU8
  omega

theorem toU8_lt (x : Int) : toU8 x < 256 := by
  unfold toU8
  omega

theorem byteAt_lt (x i : Nat) : byteAt x i < 256 :=
  Nat.mod_lt _ (by norm_num)

theorem TwoWire.read_cons {δ : Type} (b : TwoWire δ) (x : Nat) (rest : List Nat)
    (h : b.rxBuf = x :: rest) : b.read = ((x : Int), { b with rxBuf := rest }) := by
  unfold TwoWire.read
  rw [h]

theorem delivered_lt {δ F : Type} (D : Device δ) (s : Driver F) (reg n : Nat) (w : World δ)
    (x : Nat) (hx : x ∈ delivered D s reg n w) : x < 256 := by
  unfold delivered TwoWire.requestFrom at hx
  simp only [List.mem_map] at hx
  obtain ⟨y, _, rfl⟩ := hx
  exact Nat.mod_lt _ (by norm_num)

theorem unionOfWord_two (x : Nat) : unionOfWord 2 x = [byteAt x 0, byteAt x 1] := rfl

theorem unionOfWord_four (x : Nat) :
    unionOfWord 4 x = [byteAt x 0, byteAt x 1, byteAt x 2, byteAt x 3] := rfl

theorem read_12_of_delivered {δ F : Type} (D : Device δ) (u : Uninit) (s : Driver F)
    (reg : Nat) (w : World δ) (first second : Nat) (hw : s.I2C_WIRE < 4)
    (hd : delivered D s reg 2 w = [first, second]) :
    (LTC2946_read_12_bits D u s reg w).2.1 = (256 * first + second) / 16 := by
  have h1 : first < 256 := delivered_lt D s reg 2 w first (by rw [hd]; simp)
  have h2 : second < 256 := delivered_lt D s reg 2 w second (by rw [hd]; simp)
  unfold delivered at hd
  unfold LTC2946_read_12_bits
  simp only [if_pos hw]
  rw [TwoWire.read_cons _ first [second] hd]
  simp only []
  rw [TwoWire.read_cons _ second [] rfl]
  simp only [unionOfWord_two, List.set, wordOfUnion, List.foldr, toU8_natCast _ h1,
    toU8_natCast _ h2, u16, Nat.shiftRight_eq_div_pow]
  omega

/-- Whatever the bus does, a 12-bit read stores a code of at most 4095. -/
theorem read_12_le {δ F : Type} (D : Device δ) (u : Uninit) (s : Driver F)
    (reg : Nat) (w : World δ) : (LTC2946_read_12_bits D u s reg w).2.1 ≤ 4095 := by
  unfold LTC2946_read_12_bits
  split
  · simp only [unionOfWord_two, List.set, wordOfUnion, List.foldr, u16,
      Nat.shiftRight_eq_div_pow]
    have h1 := toU8_lt ((TwoWire.requestFrom D (TwoWire.endTransmission D
      (((w s.I2C_WIRE).beginTransmission s.I2C_ADDRESS).write reg) false).2
      s.I2C_ADDRESS 2).read).1
    have h2 := toU8_lt ((TwoWire.requestFrom D (TwoWire.endTransmission D
      (((w s.I2C_WIRE).beginTransmission s.I2C_ADDRESS).write reg) false).2
      s.I2C_ADDRESS 2).read).2.read.1
    omega
  · simp only [unionOfWord_two, wordOfUnion, List.foldr, u16, Nat.shiftRight_eq_div_pow]
    have h1 := byteAt_lt (u.data % 2 ^ 16) 0
    have h2 := byteAt_lt (u.data % 2 ^ 16) 1
    omega

theorem read_24_of_delivered {δ F : Type} (D : Device δ) (u : Uninit) (s : Driver F)
    (reg : Nat) (w : World δ) (b2 b1 b0 : Nat) (hw : s.I2C_WIRE < 4)
    (hd : delivered D s reg 3 w = [b2, b1, b0]) :
    (LTC2946_read_24_bits D u s reg w).2.1 = 65536 * b2 + 256 * b1 + b0 := by
  have h2 : b2 < 256 := delivered_lt D s reg 3 w b2 (by rw [hd]; simp)
  have h1 : b1 < 256 := delivered_lt D s reg 3 w b1 (by rw [hd]; simp)
  have h0 : b0 < 256 := delivered_lt D s reg 3 w b0 (by rw [hd]; simp)
  unfold delivered at hd
  unfold LTC2946_read_24_bits
  simp only [if_pos hw]
  rw [TwoWire.read_cons _ b2 [b1, b0] hd]
  simp only []
  rw [TwoWire.read_cons _ b1 [b0] rfl]
  simp only []
  rw [TwoWire.read_cons _ b0 [] rfl]
  simp only [unionOfWord_four, List.set, wordOfUnion, List.foldr, toU8_natCast _ h2,
    toU8_natCast _ h1, toU8_natCast _ h0, u32]
  have ht := byteAt_lt (u.data % 2 ^ 32) 3
  have hm : (0xFFFFFF : Nat) = 2 ^ 24 - 1 := by norm_num
  rw [hm, Nat.and_comm, Nat.and_pow_two_sub_one_eq_mod]
  omega

/-- Whatever the bus does, a 24-bit read stores a value below `2^24`. -/
theorem read_24_lt {δ F : Type} (D : Device δ) (u : Uninit) (s : Driver F)
    (reg : Nat) (w : World δ) : (LTC2946_read_24_bits D u s reg w).2.1 < 2 ^ 24 := by
  have hm : (0xFFFFFF : Nat) = 2 ^ 24 - 1 := by norm_num
  have key : ∀ x : Nat, u32 (0xFFFFFF &&& x) < 2 ^ 24 := by
    intro x
    rw [hm, Nat.and_comm, Nat.and_pow_two_sub_one_eq_mod]
    unfold u32
    omega
  unfold LTC2946_read_24_bits
  split
  · exact key _
  · exact key _

/-- C4: when the bus delivers the bytes `first`, `second` in that order, `LTC2946_read_12_bits`
stores `(256 * first + second) / 16`, the big-endian 16-bit word shifted right by 4, and this
code is at most 4095. -/
theorem read_12_bits_code {δ F : Type} (D : Device δ) (u : Uninit) (s : Driver F)
    (reg : Nat) (w : World δ) (first second : Nat) (hw : s.I2C_WIRE < 4)
    (hd : delivered D s reg 2 w = [first, second]) :
    (LTC2946_read_12_bits D u s reg w).2.1 = (256 * first + second) / 16 ∧
    (LTC2946_read_12_bits D u s reg w).2.1 = (256 * first + second) >>> 4 ∧
    (LTC2946_read_12_bits D u s reg w).2.1 ≤ 4095 := by
  refine ⟨read_12_of_delivered D u s reg w first second hw hd, ?_, read_12_le D u s reg w⟩
  rw [read_12_of_delivered D u s reg w first second hw hd, Nat.shiftRight_eq_div_pow]

/-- C4 at a concrete input: the register file delivers `0x06`, `0x40` for the VIN register and
the stored code is 100. -/
theorem read_12_bits_code_witness :
    (LTC2946_read_12_bits regFileDevice scenarioUninit scenarioDriver 0x1E scenarioWorld).2.1
      = (256 * 0x06 + 0x40) / 16 ∧
    (LTC2946_read_12_bits regFileDevice scenarioUninit scenarioDriver 0x1E scenarioWorld).2.1
      = (256 * 0x06 + 0x40) >>> 4 ∧
    (LTC2946_read_12_bits regFileDevice scenarioUninit scenarioDriver 0x1E scenarioWorld).2.1
      ≤ 4095 :=
  read_12_bits_code regFileDevice scenarioUninit scenarioDriver 0x1E scenarioWorld 0x06 0x40
    (by decide) (by decide)

/-- C5: when the bus delivers the bytes `b2`, `b1`, `b0` in that order, `LTC2946_read_24_bits`
stores `65536 * b2 + 256 * b1 + b0`, a value below `2^24`, for every initial content of the
union (in particular of its top byte, which is never written): the result is the same for any
two initial contents. -/
theorem read_24_bits_code {δ F : Type} (D : Device δ) (u : Uninit) (s : Driver F)
    (reg : Nat) (w : World δ) (b2 b1 b0 : Nat) (hw : s.I2C_WIRE < 4)
    (hd : delivered D s reg 3 w = [b2, b1, b0]) :
    (LTC2946_read_24_bits D u s reg w).2.1 = 65536 * b2 + 256 * b1 + b0 ∧
    (LTC2946_read_24_bits D u s reg w).2.1 < 2 ^ 24 ∧
    ∀ u1 : Uninit,
      (LTC2946_read_24_bits D u1 s reg w).2.1 = (LTC2946_read_24_bits D u s reg w).2.1 := by
  refine ⟨read_24_of_delivered D u s reg w b2 b1 b0 hw hd, read_24_lt D u s reg w, ?_⟩
  intro u1
  rw [read_24_of_delivered D u s reg w b2 b1 b0 hw hd,
    read_24_of_delivered D u1 s reg w b2 b1 b0 hw hd]

/-- C5 at a concrete input: the register file delivers `0x01`, `0x02`, `0x03` for the power
register while the union starts as all-ones; the stored value is `0x010203`. -/
theorem read_24_bits_code_witness :
    (LTC2946_read_24_bits regFileDevice scenarioUninit scenarioDriver 0x05 scenarioWorld).2.1
      = 65536 * 0x01 + 256 * 0x02 + 0x03 ∧
    (LTC2946_read_24_bits regFileDevice scenarioUninit scenarioDriver 0x05 scenarioWorld).2.1
      < 2 ^ 24 ∧
    ∀ u1 : Uninit,
      (LTC2946_read_24_bits regFileDevice u1 scenarioDriver 0x05 scenarioWorld).2.1
        = (LTC2946_read_24_bits regFileDevice scenarioUninit scenarioDriver 0x05
            scenarioWorld).2.1 :=
  read_24_bits_code regFileDevice scenarioUninit scenarioDriver 0x05 scenarioWorld 0x01 0x02 0x03
    (by decide) (by decide)

/-! ## Error flag: accumulation -/

theorem acksOf_append (a b : List BusEvent) : acksOf (a ++ b) = acksOf a ++ acksOf b := by
  induction a with
  | nil => rfl
  | cons e a ih =>
    cases e with
    | tx addr bytes stop ack => simp [acksOf, ih]
    | rx addr count bytes => simp [acksOf, ih]

theorem orAll_append (a b : List Nat) : orAll (a ++ b) = orAll a ||| orAll b := by
  induction a with
  | nil => simp [orAll]
  | cons x a ih =>
    simp only [orAll, List.cons_append, List.foldr_cons] at ih ⊢
    rw [ih, Nat.or_assoc]

theorem lor_eq_zero (a b : Nat) : a ||| b = 0 ↔ a = 0 ∧ b = 0 := by
  constructor
  · intro h
    have hb : ∀ i, (a.testBit i || b.testBit i) = false := by
      intro i
      rw [← Nat.testBit_or, h, Nat.zero_testBit]
    constructor
    · apply Nat.zero_of_testBit_eq_false
      intro i
      have := hb i
      simp only [Bool.or_eq_false_iff] at this
      exact this.1
    · apply Nat.zero_of_testBit_eq_false
      intro i
      have := hb i
      simp only [Bool.or_eq_false_iff] at this
      exact this.2
  · rintro ⟨rfl, rfl⟩
    rfl

theorem orAll_ne_zero_iff (l : List Nat) : orAll l ≠ 0 ↔ ∃ a ∈ l, a ≠ 0 := by
  induction l with
  | nil => simp [orAll]
  | cons x l ih =>
    have e : orAll (x :: l) = x ||| orAll l := rfl
    rw [e, Ne, lor_eq_zero, not_and_or]
    simp only [List.mem_cons, exists_eq_or_imp]
    exact or_congr Iff.rfl ih

theorem accum_refl {δ : Type} (k : Nat) (w : World δ) : Accum k w w 0 :=
  ⟨[], by simp, rfl⟩

theorem accum_trans {δ : Type} {k : Nat} {w w1 w2 : World δ} {a b : Nat}
    (h1 : Accum k w w1 a) (h2 : Accum k w1 w2 b) : Accum k w w2 (a ||| b) := by
  obtain ⟨e1, t1, o1⟩ := h1
  obtain ⟨e2, t2, o2⟩ := h2
  refine ⟨e1 ++ e2, ?_, ?_⟩
  · rw [t2, t1, List.append_assoc]
  · rw [acksOf_append, orAll_append, o1, o2]

theorem TwoWire.read_trace {δ : Type} (b : TwoWire δ) : b.read.2.trace = b.trace := by
  unfold TwoWire.read
  cases b.rxBuf <;> rfl

section
variable {δ F : Type} (D : Device δ) (u : Uninit)

theorem write_accum (s : Driver F) (reg c : Nat) (w : World δ) (hw : s.I2C_WIRE < 4) :
    Accum s.I2C_WIRE w (LTC2946_write D u s reg c w).2 (LTC2946_write D u s reg c w).1 := by
  unfold LTC2946_write
  simp only [if_pos hw]
  exact ⟨[BusEvent.tx _ _ _ _], by simp [TwoWire.endTransmission]; rfl, by simp [acksOf, orAll, TwoWire.endTransmission]⟩

theorem read_accum (s : Driver F) (reg c : Nat) (w : World δ) (hw : s.I2C_WIRE < 4) :
    Accum s.I2C_WIRE w (LTC2946_read D u s reg c w).2.2 (LTC2946_read D u s reg c w).1 := by
  unfold LTC2946_read
  simp only [if_pos hw]
  exact ⟨[BusEvent.tx _ _ _ _, BusEvent.rx _ _ _],
    by simp [TwoWire.read_trace, TwoWire.requestFrom, TwoWire.endTransmission]; rfl,
    by simp [acksOf, orAll, TwoWire.endTransmission]⟩

theorem read_12_accum (s : Driver F) (reg : Nat) (w : World δ) (hw : s.I2C_WIRE < 4) :
    Accum s.I2C_WIRE w (LTC2946_read_12_bits D u s reg w).2.2
      (LTC2946_read_12_bits D u s reg w).1 := by
  unfold LTC2946_read_12_bits
  simp only [if_pos hw]
  exact ⟨[BusEvent.tx _ _ _ _, BusEvent.rx _ _ _],
    by simp [TwoWire.read_trace, TwoWire.requestFrom, TwoWire.endTransmission]; rfl,
    by simp [acksOf, orAll, TwoWire.endTransmission]⟩

theorem read_24_accum (s : Driver F) (reg : Nat) (w : World δ) (hw : s.I2C_WIRE < 4) :
    Accum s.I2C_WIRE w (LTC2946_read_24_bits D u s reg w).2.2
      (LTC2946_read_24_bits D u s reg w).1 := by
  unfold LTC2946_read_24_bits
  simp only [if_pos hw]
  exact ⟨[BusEvent.tx _ _ _ _, BusEvent.rx _ _ _],
    by simp [TwoWire.read_trace, TwoWire.requestFrom, TwoWire.endTransmission]; rfl,
    by simp [acksOf, orAll, TwoWire.endTransmission]⟩

end


theorem step_refl {δ F : Type} (st : Driver F × World δ) : Step st st :=
  ⟨rfl, 0, by simp, fun _ => accum_refl _ _⟩

theorem step_trans {δ F : Type} {st st1 st2 : Driver F × World δ}
    (h1 : Step st st1) (h2 : Step st1 st2) : Step st st2 := by
  obtain ⟨e1, a, f1, t1⟩ := h1
  obtain ⟨e2, b, f2, t2⟩ := h2
  refine ⟨e2.trans e1, a ||| b, ?_, ?_⟩
  · rw [f2, f1, Nat.or_assoc]
  · intro hw
    rw [e1] at t2
    exact accum_trans (t1 hw) (t2 hw)

section
variable {δ F : Type} (H : Header F) (A : FloatArith F) (D : Device δ) (u : Uninit)

theorem pollBusy_accum (s : Driver F) :
    ∀ (fuel ack busy : Nat) (w : World δ) (r : Nat × Nat × World δ),
      pollBusy H D u s fuel ack busy w = some r →
      ∃ a, r.1 = ack ||| a ∧ (s.I2C_WIRE < 4 → Accum s.I2C_WIRE w r.2.2 a) := by
  intro fuel
  induction fuel with
  | zero => intro ack busy w r h; simp [pollBusy] at h
  | succ n ih =>
    intro ack busy w r h
    unfold pollBusy at h
    simp only [] at h
    split at h
    · obtain ⟨a, ha, hacc⟩ := ih _ _ _ r h
      refine ⟨(LTC2946_read D u s H.LTC2946_STATUS2_REG busy w).1 ||| a, ?_, ?_⟩
      · rw [ha, Nat.or_assoc]
      · intro hw
        exact accum_trans (read_accum D u s _ busy w hw) (hacc hw)
    · cases h
      exact ⟨_, rfl, fun hw => read_accum D u s _ busy w hw⟩

theorem snapshotRequest_accum (fuel : Nat) (s : Driver F) (channel reg ack : Nat) (w : World δ)
    (r : Nat × Nat × World δ) (h : snapshotRequest H D u fuel s channel reg ack w = some r) :
    ∃ a, r.1 = ack ||| a ∧ (s.I2C_WIRE < 4 → Accum s.I2C_WIRE w r.2.2 a) := by
  unfold snapshotRequest at h
  simp only [] at h
  split at h
  · cases h
  · rename_i p hp
    cases h
    obtain ⟨a, ha, hacc⟩ := pollBusy_accum H D u s _ _ _ _ p hp
    refine ⟨(LTC2946_write D u s H.LTC2946_CTRLA_REG
      (u8 (H.LTC2946_CHANNEL_CONFIG_SNAPSHOT ||| channel)) w).1 ||| a
      ||| (LTC2946_read_12_bits D u s reg p.2.2).1, ?_, ?_⟩
    · simp only [ha, Nat.or_assoc]
    · intro hw
      exact accum_trans (accum_trans (write_accum D u s _ _ w hw) (hacc hw))
        (read_12_accum D u s reg _ hw)

theorem SetContinuous_step (s : Driver F) (w : World δ) :
    Step (s, w) (SetContinuous H D u s w) := by
  refine ⟨rfl, _, rfl, ?_⟩
  intro hw
  exact write_accum D u { s with LTC2946_mode := 0 } _ _ w hw

theorem ReadVIN_step (fuel : Nat) (s : Driver F) (w : World δ) (r : F × Driver F × World δ)
    (h : ReadVIN H A D u fuel s w = some r) : Step (s, w) r.2 := by
  unfold ReadVIN at h
  simp only [] at h
  split at h
  · cases h
  · rename_i ack code w1 hacq
    cases h
    split at hacq
    · cases hacq
      exact ⟨rfl, _, rfl, fun hw => by simpa using read_12_accum D u s _ w hw⟩
    · split at hacq
      · obtain ⟨a, ha, hacc⟩ := snapshotRequest_accum H D u fuel s _ _ _ w _ hacq
        exact ⟨rfl, a, by simp at ha; simp [ha], hacc⟩
      · cases hacq
        exact ⟨rfl, 0, rfl, fun _ => accum_refl _ _⟩

theorem ReadCurrent_step (fuel : Nat) (s : Driver F) (w : World δ)
    (r : F × Driver F × World δ)
    (h : ReadCurrent H A D u fuel s w = some r) : Step (s, w) r.2 := by
  unfold ReadCurrent at h
  simp only [] at h
  split at h
  · cases h
  · rename_i ack code w1 hacq
    cases h
    split at hacq
    · cases hacq
      exact ⟨rfl, _, rfl, fun hw => by simpa using read_12_accum D u s _ w hw⟩
    · split at hacq
      · obtain ⟨a, ha, hacc⟩ := snapshotRequest_accum H D u fuel s _ _ _ w _ hacq
        exact ⟨rfl, a, by simp at ha; simp [ha], hacc⟩
      · cases hacq
        exact ⟨rfl, 0, rfl, fun _ => accum_refl _ _⟩

theorem ReadPower_step (s : Driver F) (w : World δ) :
    Step (s, w) (ReadPower H A D u s w).2 := by
  unfold ReadPower
  simp only []
  split
  · exact ⟨rfl, _, rfl, fun hw => by simpa using read_24_accum D u s _ w hw⟩
  · split
    · exact ⟨rfl, 0, rfl, fun _ => accum_refl _ _⟩
    · exact ⟨rfl, 0, rfl, fun _ => accum_refl _ _⟩

end


section
variable {δ F : Type} (H : Header F) (A : FloatArith F) (D : Device δ) (u : Uninit)

theorem Setup_step (s : Driver F) (w : World δ) : Step (s, w) (s, Setup s w) := by
  refine ⟨rfl, 0, by simp, fun hw => ⟨[], ?_, rfl⟩⟩
  simp [Setup, hw, TwoWire.begin]

theorem runOp_step (fuel : Nat) (op : Op F) (st st1 : Driver F × World δ)
    (h : runOp H A D u fuel op st = some st1) : Step st st1 := by
  cases op with
  | setup => cases h; exact Setup_step _ _
  | setVINConst c => cases h; exact ⟨rfl, 0, by simp [SetVINConst], fun _ => accum_refl _ _⟩
  | setAmperageConst c =>
    cases h; exact ⟨rfl, 0, by simp [SetAmperageConst], fun _ => accum_refl _ _⟩
  | setPowerConst c => cases h; exact ⟨rfl, 0, by simp [SetPowerConst], fun _ => accum_refl _ _⟩
  | setContinuous => cases h; exact SetContinuous_step H D u _ _
  | setSnapShot => cases h; exact ⟨rfl, 0, by simp [SetSnapShot], fun _ => accum_refl _ _⟩
  | enableConversion b =>
    cases h; exact ⟨rfl, 0, by simp [EnableConversion], fun _ => accum_refl _ _⟩
  | enableLegacy b => cases h; exact ⟨rfl, 0, by simp [EnableLegacy], fun _ => accum_refl _ _⟩
  | readVIN =>
    simp only [runOp, Option.map_eq_some'] at h
    obtain ⟨r, hr, rfl⟩ := h
    exact ReadVIN_step H A D u fuel _ _ r hr
  | readCurrent =>
    simp only [runOp, Option.map_eq_some'] at h
    obtain ⟨r, hr, rfl⟩ := h
    exact ReadCurrent_step H A D u fuel _ _ r hr
  | readPower => cases h; exact ReadPower_step H A D u _ _

theorem runOps_step (fuel : Nat) (ops : List (Op F)) :
    ∀ (st st1 : Driver F × World δ), runOps H A D u fuel ops st = some st1 → Step st st1 := by
  induction ops with
  | nil => intro st st1 h; cases h; exact step_refl _
  | cons op ops ih =>
    intro st st1 h
    unfold runOps at h
    split at h
    · cases h
    · rename_i st2 h2
      exact step_trans (runOp_step H A D u fuel op st st2 h2) (ih st2 st1 h)

/-- C3: on a driver attached to one of the four buses, any sequence of operations other than
`ErrorCheck` (in particular a single `SetContinuous`, `ReadVIN`, `ReadCurrent` or `ReadPower`,
in either acquisition mode) that returns leaves `I2C_ACK` equal to its previous value OR the
acks of all transactions the sequence put on the bus; starting from a clear flag the flag ends
nonzero exactly when one of those acks is nonzero; a nonzero flag is never turned back to
zero. -/
theorem error_flag_accumulates (fuel : Nat) (ops : List (Op F)) (s : Driver F) (w : World δ)
    (r : Driver F × World δ) (hw : s.I2C_WIRE < 4)
    (h : runOps H A D u fuel ops (s, w) = some r) :
    ∃ evs, (r.2 s.I2C_WIRE).trace = (w s.I2C_WIRE).trace ++ evs ∧
      r.1.I2C_ACK = s.I2C_ACK ||| orAll (acksOf evs) ∧
      (s.I2C_ACK = 0 → (r.1.I2C_ACK ≠ 0 ↔ ∃ a ∈ acksOf evs, a ≠ 0)) ∧
      (s.I2C_ACK ≠ 0 → r.1.I2C_ACK ≠ 0) := by
  obtain ⟨_, a, hf, hacc⟩ := runOps_step H A D u fuel ops (s, w) r h
  obtain ⟨evs, ht, ho⟩ := hacc hw
  refine ⟨evs, ht, by rw [hf, ho], ?_, ?_⟩
  · intro h0
    rw [hf, h0, Nat.zero_or, ← ho]
    exact orAll_ne_zero_iff _
  · intro hne hz
    rw [hf, lor_eq_zero] at hz
    exact hne hz.1

end

/-- C3 at a concrete input: a snapshot `ReadVIN` whose first status poll is not acknowledged
(status code 4) and reports busy, then `SetContinuous` and `ReadPower`; the run returns and the
flag ends as 4. -/
theorem error_flag_accumulates_witness :
    ∃ r, runOps scenarioHeader binary32 scriptDevice scenarioUninit 5
        [Op.setSnapShot, Op.readVIN, Op.setContinuous, Op.readPower]
        (scenarioDriver, scriptWorld [0, 4, 0, 0] [0x08, 0x00, 0x06, 0x40, 1, 2, 3]) = some r ∧
      r.1.I2C_ACK = 4 ∧
      ∃ evs, (r.2 0).trace = [] ++ evs ∧
        r.1.I2C_ACK = 0 ||| orAll (acksOf evs) ∧
        ((0 : Nat) = 0 → (r.1.I2C_ACK ≠ 0 ↔ ∃ a ∈ acksOf evs, a ≠ 0)) ∧
        ((0 : Nat) ≠ 0 → r.1.I2C_ACK ≠ 0) := by
  have hsome : (runOps scenarioHeader binary32 scriptDevice scenarioUninit 5
        [Op.setSnapShot, Op.readVIN, Op.setContinuous, Op.readPower]
        (scenarioDriver, scriptWorld [0, 4, 0, 0] [0x08, 0x00, 0x06, 0x40, 1, 2, 3])).isSome
      = true := by rfl
  obtain ⟨r, hr⟩ := Option.isSome_iff_exists.mp hsome
  have hflag : (runOps scenarioHeader binary32 scriptDevice scenarioUninit 5
        [Op.setSnapShot, Op.readVIN, Op.setContinuous, Op.readPower]
        (scenarioDriver, scriptWorld [0, 4, 0, 0] [0x08, 0x00, 0x06, 0x40, 1, 2, 3])).map
        (fun r => r.1.I2C_ACK) = some 4 := by rfl
  rw [hr] at hflag
  exact ⟨r, hr, by simpa using hflag,
    error_flag_accumulates scenarioHeader binary32 scriptDevice scenarioUninit 5 _
      scenarioDriver _ r (by decide) hr⟩


/-! ## Round trip through a register file -/

theorem range_map_one {α : Type} (f : Nat → α) : (List.range 1).map f = [f 0] := rfl
theorem range_map_two {α : Type} (f : Nat → α) : (List.range 2).map f = [f 0, f 1] := rfl
theorem range_map_three {α : Type} (f : Nat → α) : (List.range 3).map f = [f 0, f 1, f 2] := rfl
theorem range_map_four {α : Type} (f : Nat → α) :
    (List.range 4).map f = [f 0, f 1, f 2, f 3] := rfl

theorem RegFile.store_skip (vals : List Nat) :
    ∀ (regs : Nat → Nat) (reg k : Nat), (∀ j, j < vals.length → (reg + j) % 256 ≠ k) →
      RegFile.store regs reg vals k = regs k := by
  induction vals with
  | nil => intro regs reg k _; rfl
  | cons v vs ih =>
    intro regs reg k h
    unfold RegFile.store
    rw [ih _ _ _ (fun j hj => by
      have := h (j + 1) (by simp only [List.length_cons]; omega)
      rwa [show reg + (j + 1) = reg + 1 + j by omega] at this)]
    have h0 := h 0 (by simp)
    exact Function.update_noteq (by simpa using h0.symm) _ _

theorem RegFile.store_get (vals : List Nat) :
    ∀ (regs : Nat → Nat) (reg i : Nat), i < vals.length → vals.length ≤ 256 →
      RegFile.store regs reg vals ((reg + i) % 256) = vals.getD i 0 := by
  induction vals with
  | nil => intro regs reg i hi; simp at hi
  | cons v vs ih =>
    intro regs reg i hi hlen
    simp only [List.length_cons] at hi hlen
    unfold RegFile.store
    cases i with
    | zero =>
      rw [RegFile.store_skip vs _ _ _ (fun j hj => by omega)]
      simp
    | succ i =>
      rw [show reg + (i + 1) = reg + 1 + i by omega, ih _ _ _ (by omega) (by omega)]
      simp

theorem delivered_regFile {F : Type} (s : Driver F) (reg n : Nat) (w : World RegFile) :
    delivered regFileDevice s reg n w
      = (List.range n).map fun i => (w s.I2C_WIRE).dev.regs ((reg + i) % 256) % 256 := by
  simp only [delivered, TwoWire.beginTransmission, TwoWire.write, TwoWire.endTransmission,
    TwoWire.requestFrom, regFileDevice, RegFile.store, List.nil_append, List.length_nil, u8]
  rw [List.take_of_length_le (by simp)]
  rw [List.map_map]
  apply List.map_congr_left
  intro i _
  simp only [Function.comp, u8]
  congr 2
  omega


section
variable {δ F : Type} (D : Device δ) (u : Uninit)

theorem read_8_of_delivered (s : Driver F) (reg code0 : Nat) (w : World δ) (b0 : Nat)
    (hw : s.I2C_WIRE < 4) (hd : delivered D s reg 1 w = [b0]) :
    (LTC2946_read D u s reg code0 w).2.1 = b0 := by
  have h0 : b0 < 256 := delivered_lt D s reg 1 w b0 (by rw [hd]; simp)
  unfold delivered at hd
  unfold LTC2946_read
  simp only [if_pos hw]
  rw [TwoWire.read_cons _ b0 [] hd]
  exact toU8_natCast _ h0

theorem read_16_of_delivered (s : Driver F) (reg : Nat) (w : World δ) (b1 b0 : Nat)
    (hw : s.I2C_WIRE < 4) (hd : delivered D s reg 2 w = [b1, b0]) :
    (LTC2946_read_16_bits D u s reg w).2.1 = 256 * b1 + b0 := by
  have h1 : b1 < 256 := delivered_lt D s reg 2 w b1 (by rw [hd]; simp)
  have h0 : b0 < 256 := delivered_lt D s reg 2 w b0 (by rw [hd]; simp)
  unfold delivered at hd
  unfold LTC2946_read_16_bits
  simp only [if_pos hw]
  rw [TwoWire.read_cons _ b1 [b0] hd]
  simp only []
  rw [TwoWire.read_cons _ b0 [] rfl]
  simp only [unionOfWord_two, List.set, wordOfUnion, List.foldr, toU8_natCast _ h1,
    toU8_natCast _ h0]
  omega

theorem read_32_of_delivered (s : Driver F) (reg : Nat) (w : World δ) (b3 b2 b1 b0 : Nat)
    (hw : s.I2C_WIRE < 4) (hd : delivered D s reg 4 w = [b3, b2, b1, b0]) :
    (LTC2946_read_32_bits D u s reg w).2.1 = 16777216 * b3 + 65536 * b2 + 256 * b1 + b0 := by
  have h3 : b3 < 256 := delivered_lt D s reg 4 w b3 (by rw [hd]; simp)
  have h2 : b2 < 256 := delivered_lt D s reg 4 w b2 (by rw [hd]; simp)
  have h1 : b1 < 256 := delivered_lt D s reg 4 w b1 (by rw [hd]; simp)
  have h0 : b0 < 256 := delivered_lt D s reg 4 w b0 (by rw [hd]; simp)
  unfold delivered at hd
  unfold LTC2946_read_32_bits
  simp only [if_pos hw]
  rw [TwoWire.read_cons _ b3 [b2, b1, b0] hd]
  simp only []
  rw [TwoWire.read_cons _ b2 [b1, b0] rfl]
  simp only []
  rw [TwoWire.read_cons _ b1 [b0] rfl]
  simp only []
  rw [TwoWire.read_cons _ b0 [] rfl]
  simp only [unionOfWord_four, List.set, wordOfUnion, List.foldr, toU8_natCast _ h3,
    toU8_natCast _ h2, toU8_natCast _ h1, toU8_natCast _ h0, u32]
  have hm : (0xFFFFFFFF : Nat) = 2 ^ 32 - 1 := by norm_num
  rw [hm, Nat.and_comm, Nat.and_pow_two_sub_one_eq_mod]
  omega

/-- What the 8-bit write puts on the bus. -/
theorem write_8_trace (s : Driver F) (reg c : Nat) (w : World δ) (hw : s.I2C_WIRE < 4) :
    ((LTC2946_write D u s reg c w).2 s.I2C_WIRE).trace = (w s.I2C_WIRE).trace ++
      [BusEvent.tx (s.I2C_ADDRESS % 256) [reg % 256, c % 256] false
        (LTC2946_write D u s reg c w).1] := by
  simp [LTC2946_write, hw, TwoWire.endTransmission, TwoWire.write, TwoWire.beginTransmission, u8]

theorem write_16_trace (s : Driver F) (reg v : Nat) (w : World δ) (hw : s.I2C_WIRE < 4) :
    ((LTC2946_write_16_bits D u s reg v w).2 s.I2C_WIRE).trace = (w s.I2C_WIRE).trace ++
      [BusEvent.tx (s.I2C_ADDRESS % 256) [reg % 256, v / 256 % 256, v % 256] false
        (LTC2946_write_16_bits D u s reg v w).1] := by
  simp [LTC2946_write_16_bits, hw, TwoWire.endTransmission, TwoWire.write,
    TwoWire.beginTransmission, u8, u16, unionOfWord_two, byteAt]
  omega

theorem write_24_trace (s : Driver F) (reg v : Nat) (w : World δ) (hw : s.I2C_WIRE < 4) :
    ((LTC2946_write_24_bits D u s reg v w).2 s.I2C_WIRE).trace = (w s.I2C_WIRE).trace ++
      [BusEvent.tx (s.I2C_ADDRESS % 256) [reg % 256, v / 65536 % 256, v / 256 % 256, v % 256]
        false (LTC2946_write_24_bits D u s reg v w).1] := by
  simp [LTC2946_write_24_bits, hw, TwoWire.endTransmission, TwoWire.write,
    TwoWire.beginTransmission, u8, u32, unionOfWord_four, byteAt]
  omega

theorem write_32_trace (s : Driver F) (reg v : Nat) (w : World δ) (hw : s.I2C_WIRE < 4) :
    ((LTC2946_write_32_bits D u s reg v w).2 s.I2C_WIRE).trace = (w s.I2C_WIRE).trace ++
      [BusEvent.tx (s.I2C_ADDRESS % 256)
        [reg % 256, v / 16777216 % 256, v / 65536 % 256, v / 256 % 256, v % 256]
        false (LTC2946_write_32_bits D u s reg v w).1] := by
  simp [LTC2946_write_32_bits, hw, TwoWire.endTransmission, TwoWire.write,
    TwoWire.beginTransmission, u8, u32, unionOfWord_four, byteAt]
  omega

end

/-- Registers of the register file after an addressed write was put on the bus. -/
theorem regs_after_tx (b : TwoWire RegFile) :
    (b.endTransmission regFileDevice false).2.dev.regs =
      match b.txBuf with
      | [] => b.dev.regs
      | reg :: vals => RegFile.store b.dev.regs reg vals := by
  unfold TwoWire.endTransmission regFileDevice
  cases b.txBuf <;> rfl


theorem write_read_8 {F : Type} (u : Uninit) (s : Driver F) (reg c code0 : Nat)
    (w : World RegFile) (hw : s.I2C_WIRE < 4) :
    (LTC2946_read regFileDevice u s reg code0 (LTC2946_write regFileDevice u s reg c w).2).2.1
      = c % 256 := by
  apply read_8_of_delivered regFileDevice u s reg code0 _ _ hw
  rw [delivered_regFile]
  simp only [LTC2946_write, if_pos hw, Function.update_same, regs_after_tx,
    TwoWire.beginTransmission, TwoWire.write, List.nil_append, List.singleton_append,
    List.cons_append, range_map_one, u8]
  rw [show (reg + 0) % 256 = (reg % 256 + 0) % 256 by omega,
    RegFile.store_get _ _ _ 0 (by simp) (by simp)]
  simp


theorem write_read_16 {F : Type} (u : Uninit) (s : Driver F) (reg v : Nat)
    (w : World RegFile) (hw : s.I2C_WIRE < 4) :
    (LTC2946_read_16_bits regFileDevice u s reg
      (LTC2946_write_16_bits regFileDevice u s reg v w).2).2.1 = v % 2 ^ 16 := by
  have hd : delivered regFileDevice s reg 2 (LTC2946_write_16_bits regFileDevice u s reg v w).2
      = [byteAt (u16 v) 1, byteAt (u16 v) 0] := by
    rw [delivered_regFile]
    simp only [LTC2946_write_16_bits, if_pos hw, Function.update_same, regs_after_tx,
      TwoWire.beginTransmission, TwoWire.write, List.nil_append, List.singleton_append,
      List.cons_append, range_map_two, u8, unionOfWord_two, List.getD_cons_zero,
      List.getD_cons_succ]
    rw [show (reg + 0) % 256 = (reg % 256 + 0) % 256 by omega,
      show (reg + 1) % 256 = (reg % 256 + 1) % 256 by omega,
      RegFile.store_get _ _ _ 0 (by simp) (by simp),
      RegFile.store_get _ _ _ 1 (by simp) (by simp)]
    simp [byteAt]
  rw [read_16_of_delivered regFileDevice u s reg _ _ _ hw hd]
  simp only [byteAt, u16]
  omega

theorem write_read_24 {F : Type} (u : Uninit) (s : Driver F) (reg v : Nat)
    (w : World RegFile) (hw : s.I2C_WIRE < 4) :
    (LTC2946_read_24_bits regFileDevice u s reg
      (LTC2946_write_24_bits regFileDevice u s reg v w).2).2.1 = v % 2 ^ 24 := by
  have hd : delivered regFileDevice s reg 3 (LTC2946_write_24_bits regFileDevice u s reg v w).2
      = [byteAt (u32 v) 2, byteAt (u32 v) 1, byteAt (u32 v) 0] := by
    rw [delivered_regFile]
    simp only [LTC2946_write_24_bits, if_pos hw, Function.update_same, regs_after_tx,
      TwoWire.beginTransmission, TwoWire.write, List.nil_append, List.singleton_append,
      List.cons_append, range_map_three, u8, unionOfWord_four, List.getD_cons_zero,
      List.getD_cons_succ]
    rw [show (reg + 0) % 256 = (reg % 256 + 0) % 256 by omega,
      show (reg + 1) % 256 = (reg % 256 + 1) % 256 by omega,
      show (reg + 2) % 256 = (reg % 256 + 2) % 256 by omega,
      RegFile.store_get _ _ _ 0 (by simp) (by simp),
      RegFile.store_get _ _ _ 1 (by simp) (by simp),
      RegFile.store_get _ _ _ 2 (by simp) (by simp)]
    simp [byteAt]
  rw [read_24_of_delivered regFileDevice u s reg _ _ _ _ hw hd]
  simp only [byteAt, u32]
  omega

theorem write_read_32 {F : Type} (u : Uninit) (s : Driver F) (reg v : Nat)
    (w : World RegFile) (hw : s.I2C_WIRE < 4) :
    (LTC2946_read_32_bits regFileDevice u s reg
      (LTC2946_write_32_bits regFileDevice u s reg v w).2).2.1 = v % 2 ^ 32 := by
  have hd : delivered regFileDevice s reg 4 (LTC2946_write_32_bits regFileDevice u s reg v w).2
      = [byteAt (u32 v) 3, byteAt (u32 v) 2, byteAt (u32 v) 1, byteAt (u32 v) 0] := by
    rw [delivered_regFile]
    simp only [LTC2946_write_32_bits, if_pos hw, Function.update_same, regs_after_tx,
      TwoWire.beginTransmission, TwoWire.write, List.nil_append, List.singleton_append,
      List.cons_append, range_map_four, u8, unionOfWord_four, List.getD_cons_zero,
      List.getD_cons_succ]
    rw [show (reg + 0) % 256 = (reg % 256 + 0) % 256 by omega,
      show (reg + 1) % 256 = (reg % 256 + 1) % 256 by omega,
      show (reg + 2) % 256 = (reg % 256 + 2) % 256 by omega,
      show (reg + 3) % 256 = (reg % 256 + 3) % 256 by omega,
      RegFile.store_get _ _ _ 0 (by simp) (by simp),
      RegFile.store_get _ _ _ 1 (by simp) (by simp),
      RegFile.store_get _ _ _ 2 (by simp) (by simp),
      RegFile.store_get _ _ _ 3 (by simp) (by simp)]
    simp [byteAt]
  rw [read_32_of_delivered regFileDevice u s reg _ _ _ _ _ hw hd]
  simp only [byteAt, u32]
  omega


/-- C6: against the register file, on a driver attached to one of the four buses,
`LTC2946_write(reg, c)` followed by `LTC2946_read(reg)` yields the byte `c`; the 16-, 24- and
32-bit writes followed by the read of the same width yield `v16`, `v24 mod 2^24` (for every
32-bit code `v24`) and `v32`.
Each write puts the offset byte and then the value bytes, most significant first, on the bus,
and on any bus that delivers those value bytes in that order the read of the same width
reassembles the value. -/
theorem write_read_roundtrip {F : Type} (u : Uninit) (s : Driver F)
    (reg c v16 v24 v32 code0 : Nat) (w : World RegFile) (hw : s.I2C_WIRE < 4)
    (hc : c < 256) (h16 : v16 < 2 ^ 16) (h32 : v32 < 2 ^ 32) :
    (LTC2946_read regFileDevice u s reg code0
      (LTC2946_write regFileDevice u s reg c w).2).2.1 = c ∧
    (LTC2946_read_16_bits regFileDevice u s reg
      (LTC2946_write_16_bits regFileDevice u s reg v16 w).2).2.1 = v16 ∧
    (LTC2946_read_24_bits regFileDevice u s reg
      (LTC2946_write_24_bits regFileDevice u s reg v24 w).2).2.1 = v24 % 2 ^ 24 ∧
    (LTC2946_read_32_bits regFileDevice u s reg
      (LTC2946_write_32_bits regFileDevice u s reg v32 w).2).2.1 = v32 ∧
    ((LTC2946_write regFileDevice u s reg c w).2 s.I2C_WIRE).trace = (w s.I2C_WIRE).trace ++
      [BusEvent.tx (s.I2C_ADDRESS % 256) [reg % 256, c] false 0] ∧
    ((LTC2946_write_16_bits regFileDevice u s reg v16 w).2 s.I2C_WIRE).trace =
      (w s.I2C_WIRE).trace ++
      [BusEvent.tx (s.I2C_ADDRESS % 256) [reg % 256, v16 / 256 % 256, v16 % 256] false 0] ∧
    ((LTC2946_write_24_bits regFileDevice u s reg v24 w).2 s.I2C_WIRE).trace =
      (w s.I2C_WIRE).trace ++
      [BusEvent.tx (s.I2C_ADDRESS % 256)
        [reg % 256, v24 / 65536 % 256, v24 / 256 % 256, v24 % 256] false 0] ∧
    ((LTC2946_write_32_bits regFileDevice u s reg v32 w).2 s.I2C_WIRE).trace =
      (w s.I2C_WIRE).trace ++
      [BusEvent.tx (s.I2C_ADDRESS % 256)
        [reg % 256, v32 / 16777216 % 256, v32 / 65536 % 256, v32 / 256 % 256, v32 % 256]
        false 0] ∧
    (∀ (δ : Type) (D : Device δ) (wd : World δ),
      (delivered D s reg 1 wd = [c] → (LTC2946_read D u s reg code0 wd).2.1 = c) ∧
      (delivered D s reg 2 wd = [v16 / 256 % 256, v16 % 256] →
        (LTC2946_read_16_bits D u s reg wd).2.1 = v16) ∧
      (delivered D s reg 3 wd = [v24 / 65536 % 256, v24 / 256 % 256, v24 % 256] →
        (LTC2946_read_24_bits D u s reg wd).2.1 = v24 % 2 ^ 24) ∧
      (delivered D s reg 4 wd
          = [v32 / 16777216 % 256, v32 / 65536 % 256, v32 / 256 % 256, v32 % 256] →
        (LTC2946_read_32_bits D u s reg wd).2.1 = v32)) := by
  have ack8 : (LTC2946_write regFileDevice u s reg c w).1 = 0 := by
    simp [LTC2946_write, hw, TwoWire.endTransmission, TwoWire.write, TwoWire.beginTransmission,
      regFileDevice, u8]
  have ack16 : (LTC2946_write_16_bits regFileDevice u s reg v16 w).1 = 0 := by
    simp [LTC2946_write_16_bits, hw, TwoWire.endTransmission, TwoWire.write,
      TwoWire.beginTransmission, regFileDevice, u8]
  have ack24 : (LTC2946_write_24_bits regFileDevice u s reg v24 w).1 = 0 := by
    simp [LTC2946_write_24_bits, hw, TwoWire.endTransmission, TwoWire.write,
      TwoWire.beginTransmission, regFileDevice, u8]
  have ack32 : (LTC2946_write_32_bits regFileDevice u s reg v32 w).1 = 0 := by
    simp [LTC2946_write_32_bits, hw, TwoWire.endTransmission, TwoWire.write,
      TwoWire.beginTransmission, regFileDevice, u8]
  have t8 := write_8_trace regFileDevice u s reg c w hw
  have t16 := write_16_trace regFileDevice u s reg v16 w hw
  have t24 := write_24_trace regFileDevice u s reg v24 w hw
  have t32 := write_32_trace regFileDevice u s reg v32 w hw
  rw [ack8, Nat.mod_eq_of_lt hc] at t8
  rw [ack16] at t16
  rw [ack24] at t24
  rw [ack32] at t32
  refine ⟨?_, ?_, ?_, ?_, t8, t16, t24, t32, ?_⟩
  · rw [write_read_8 u s reg c code0 w hw, Nat.mod_eq_of_lt hc]
  · rw [write_read_16 u s reg v16 w hw, Nat.mod_eq_of_lt h16]
  · exact write_read_24 u s reg v24 w hw
  · rw [write_read_32 u s reg v32 w hw, Nat.mod_eq_of_lt h32]
  · intro δ D wd
    refine ⟨fun hd => read_8_of_delivered D u s reg code0 wd c hw hd, fun hd => ?_,
      fun hd => ?_, fun hd => ?_⟩
    · rw [read_16_of_delivered D u s reg wd _ _ hw hd]
      omega
    · rw [read_24_of_delivered D u s reg wd _ _ _ hw hd]
      omega
    · rw [read_32_of_delivered D u s reg wd _ _ _ _ hw hd]
      omega

/-- C6 at a concrete input: control byte `0xA5` and the values `0xBEEF`, `0x89ABCDEF`,
`0xDEADBEEF` written to offset `0x32` of the scenario register file and read back. -/
theorem write_read_roundtrip_witness :
    (LTC2946_read regFileDevice scenarioUninit scenarioDriver 0x32 0
      (LTC2946_write regFileDevice scenarioUninit scenarioDriver 0x32 0xA5
        scenarioWorld).2).2.1 = 0xA5 ∧
    (LTC2946_read_16_bits regFileDevice scenarioUninit scenarioDriver 0x32
      (LTC2946_write_16_bits regFileDevice scenarioUninit scenarioDriver 0x32 0xBEEF
        scenarioWorld).2).2.1 = 0xBEEF ∧
    (LTC2946_read_24_bits regFileDevice scenarioUninit scenarioDriver 0x32
      (LTC2946_write_24_bits regFileDevice scenarioUninit scenarioDriver 0x32 0x89ABCDEF
        scenarioWorld).2).2.1 = 0xABCDEF ∧
    (LTC2946_read_32_bits regFileDevice scenarioUninit scenarioDriver 0x32
      (LTC2946_write_32_bits regFileDevice scenarioUninit scenarioDriver 0x32 0xDEADBEEF
        scenarioWorld).2).2.1 = 0xDEADBEEF :=
  have h := write_read_roundtrip scenarioUninit scenarioDriver 0x32 0xA5 0xBEEF 0x89ABCDEF
    0xDEADBEEF 0 scenarioWorld (by decide) (by decide) (by decide) (by decide)
  ⟨h.1, h.2.1, h.2.2.1, h.2.2.2.1⟩


/-! ## Binary32 rounding -/

theorem roundHalfEven_of_near (r : ℚ) (m : ℤ) (h : |r - m| < 1 / 2) : roundHalfEven r = m := by
  have h1 := abs_lt.mp h
  have hf : ⌊r⌋ = m ∨ ⌊r⌋ = m - 1 := by
    have a1 : m - 1 ≤ ⌊r⌋ := by
      apply Int.le_floor.mpr
      push_cast; linarith [h1.1]
    have a2 : ⌊r⌋ ≤ m := by
      have : ⌊r⌋ < m + 1 := by
        apply Int.floor_lt.mpr
        push_cast; linarith [h1.2]
      omega
    omega
  unfold roundHalfEven
  rcases hf with hf | hf
  · simp only [hf]
    rw [if_pos (by linarith [h1.2])]
  · simp only [hf]
    have e : r - ((m - 1 : ℤ) : ℚ) = r - m + 1 := by push_cast; ring
    rw [if_neg (by rw [e]; linarith [h1.1]), if_pos (by rw [e]; linarith [h1.1])]
    ring

theorem log_two_eq (x : ℚ) (e : ℤ) (h1 : (2 : ℚ) ^ e ≤ |x|) (h2 : |x| < (2 : ℚ) ^ (e + 1)) :
    Int.log 2 |x| = e := by
  have hpos : 0 < |x| := lt_of_lt_of_le (by positivity) h1
  apply le_antisymm
  · have := (Int.lt_zpow_iff_log_lt (b := 2) (by norm_num) hpos).mp (by exact_mod_cast h2)
    omega
  · exact (Int.zpow_le_iff_le_log (b := 2) (by norm_num) hpos).mp (by exact_mod_cast h1)

theorem round_eq (x : ℚ) (e m : ℤ) (he : -126 ≤ e) (h1 : (2 : ℚ) ^ e ≤ |x|)
    (h2 : |x| < (2 : ℚ) ^ (e + 1)) (h3 : |x / (2 : ℚ) ^ (e - 23) - m| < 1 / 2)
    (h4 : |(m : ℚ) * (2 : ℚ) ^ (e - 23)| < (2 : ℚ) ^ 128) :
    Binary32.round x = Binary32.finite (m * (2 : ℚ) ^ (e - 23)) := by
  have hq : Binary32.quantum x = (2 : ℚ) ^ (e - 23) := by
    unfold Binary32.quantum
    rw [log_two_eq x e h1 h2, max_eq_left he]
  unfold Binary32.round
  simp only [hq, roundHalfEven_of_near _ m h3]
  rw [if_neg (not_le.mpr h4)]

theorem round_natCast (n : ℕ) (h : n ≤ 2 ^ 24) : Binary32.round (n : ℚ) = Binary32.finite n := by
  rcases Nat.eq_zero_or_pos n with h0 | hpos
  · subst h0
    simp [Binary32.round, roundHalfEven]
  have hlog : Int.log 2 |(n : ℚ)| = (Nat.log 2 n : ℤ) := by
    rw [abs_of_nonneg (by positivity)]
    exact Int.log_natCast 2 n
  have hle : Nat.log 2 n ≤ 24 := by
    have : Nat.log 2 n < 25 := by
      apply Nat.log_lt_of_lt_pow (by omega)
      have : (2 : ℕ) ^ 24 < 2 ^ 25 := by norm_num
      omega
    omega
  have hq : Binary32.quantum (n : ℚ) = (2 : ℚ) ^ ((Nat.log 2 n : ℤ) - 23) := by
    unfold Binary32.quantum
    rw [hlog, max_eq_left (by omega)]
  -- the scaled value is an integer
  have hint : ∃ k : ℤ, (n : ℚ) / (2 : ℚ) ^ ((Nat.log 2 n : ℤ) - 23) = k := by
    rcases Nat.lt_or_ge (Nat.log 2 n) 24 with hlt | hge
    · refine ⟨n * 2 ^ (23 - Nat.log 2 n), ?_⟩
      have : ((Nat.log 2 n : ℤ) - 23) = -((23 - Nat.log 2 n : ℕ) : ℤ) := by omega
      rw [this, zpow_neg, zpow_natCast]
      push_cast
      field_simp
    · have h24 : Nat.log 2 n = 24 := by omega
      have hn : n = 2 ^ 24 := by
        have := Nat.pow_log_le_self 2 (Nat.pos_iff_ne_zero.mp hpos)
        rw [h24] at this
        omega
      refine ⟨2 ^ 23, ?_⟩
      rw [h24, hn]
      norm_num
  obtain ⟨k, hk⟩ := hint
  have hr : roundHalfEven ((n : ℚ) / (2 : ℚ) ^ ((Nat.log 2 n : ℤ) - 23)) = k := by
    apply roundHalfEven_of_near
    rw [hk]; norm_num
  have hback : (k : ℚ) * (2 : ℚ) ^ ((Nat.log 2 n : ℤ) - 23) = n := by
    rw [← hk]
    field_simp
  unfold Binary32.round
  simp only [hq, hr, hback]
  rw [if_neg]
  rw [not_le, abs_of_nonneg (by positivity)]
  calc (n : ℚ) ≤ ((2 ^ 24 : ℕ) : ℚ) := by exact_mod_cast h
    _ < 2 ^ 128 := by norm_num


/-! ## Conversion policies in continuous mode -/

section
variable {δ F : Type} (H : Header F) (A : FloatArith F) (D : Device δ) (u : Uninit)

theorem ReadVIN_continuous (fuel : Nat) (s : Driver F) (w : World δ)
    (hmode : s.LTC2946_mode = 0) :
    ReadVIN H A D u fuel s w = some
      ((if s.use_conversion then
          if s.use_legacy then
            LTC2946_VIN_code_to_voltage H A
              (LTC2946_read_12_bits D u s H.LTC2946_VIN_MSB_REG w).2.1
          else A.mul (A.ofNat (LTC2946_read_12_bits D u s H.LTC2946_VIN_MSB_REG w).2.1)
            s.VIN_CONST
        else A.ofNat (LTC2946_read_12_bits D u s H.LTC2946_VIN_MSB_REG w).2.1),
       { s with I2C_ACK := s.I2C_ACK |||
          (LTC2946_read_12_bits D u s H.LTC2946_VIN_MSB_REG w).1 },
       (LTC2946_read_12_bits D u s H.LTC2946_VIN_MSB_REG w).2.2) := by
  simp [ReadVIN, hmode]

theorem ReadCurrent_continuous (fuel : Nat) (s : Driver F) (w : World δ)
    (hmode : s.LTC2946_mode = 0) :
    ReadCurrent H A D u fuel s w = some
      ((if s.use_conversion then
          if s.use_legacy then
            LTC2946_code_to_current H A
              (LTC2946_read_12_bits D u s H.LTC2946_DELTA_SENSE_MSB_REG w).2.1
          else A.mul (A.ofNat (LTC2946_read_12_bits D u s H.LTC2946_DELTA_SENSE_MSB_REG w).2.1)
            s.CURRENT_CONST
        else A.ofNat (LTC2946_read_12_bits D u s H.LTC2946_DELTA_SENSE_MSB_REG w).2.1),
       { s with I2C_ACK := s.I2C_ACK |||
          (LTC2946_read_12_bits D u s H.LTC2946_DELTA_SENSE_MSB_REG w).1 },
       (LTC2946_read_12_bits D u s H.LTC2946_DELTA_SENSE_MSB_REG w).2.2) := by
  simp [ReadCurrent, hmode]

theorem ReadPower_continuous (s : Driver F) (w : World δ) (hmode : s.LTC2946_mode = 0) :
    ReadPower H A D u s w =
      ((if s.use_conversion then
          if s.use_legacy then A.ofNat 0
          else A.mul (A.ofNat (LTC2946_read_24_bits D u s H.LTC2946_POWER_MSB2_REG w).2.1)
            s.POWER_CONST
        else A.ofNat (LTC2946_read_24_bits D u s H.LTC2946_POWER_MSB2_REG w).2.1),
       { s with I2C_ACK := s.I2C_ACK |||
          (LTC2946_read_24_bits D u s H.LTC2946_POWER_MSB2_REG w).1 },
       (LTC2946_read_24_bits D u s H.LTC2946_POWER_MSB2_REG w).2.2) := by
  simp [ReadPower, hmode]

end

theorem ofNat_code12 {δ F : Type} (D : Device δ) (u : Uninit) (s : Driver F) (reg : Nat)
    (w : World δ) :
    binary32.ofNat (LTC2946_read_12_bits D u s reg w).2.1
      = Binary32.finite ((LTC2946_read_12_bits D u s reg w).2.1 : ℚ) :=
  round_natCast _ (le_trans (read_12_le D u s reg w) (by norm_num))

theorem ofNat_code24 {δ F : Type} (D : Device δ) (u : Uninit) (s : Driver F) (reg : Nat)
    (w : World δ) :
    binary32.ofNat (LTC2946_read_24_bits D u s reg w).2.1
      = Binary32.finite ((LTC2946_read_24_bits D u s reg w).2.1 : ℚ) :=
  round_natCast _ (le_of_lt (read_24_lt D u s reg w))

/-- C7: under the raw policy (`EnableConversion(false)`, either setting of `EnableLegacy`, any
scale constants) in continuous mode `ReadVIN`, `ReadCurrent` and `ReadPower` return the code
stored by their register read (12-bit, 12-bit, 24-bit) as a `float` with exactly that value:
the conversion does not round. -/
theorem raw_policy_returns_code {δ : Type} (H : Header Binary32) (D : Device δ) (u : Uninit)
    (fuel : Nat) (s : Driver Binary32) (w : World δ) (legacy : Bool)
    (hmode : s.LTC2946_mode = 0) :
    (ReadVIN H binary32 D u fuel (EnableLegacy (EnableConversion s false) legacy) w).map
        Prod.fst
      = some (Binary32.finite ((LTC2946_read_12_bits D u s H.LTC2946_VIN_MSB_REG w).2.1 : ℚ)) ∧
    (ReadCurrent H binary32 D u fuel (EnableLegacy (EnableConversion s false) legacy) w).map
        Prod.fst
      = some (Binary32.finite
          ((LTC2946_read_12_bits D u s H.LTC2946_DELTA_SENSE_MSB_REG w).2.1 : ℚ)) ∧
    (ReadPower H binary32 D u (EnableLegacy (EnableConversion s false) legacy) w).1
      = Binary32.finite ((LTC2946_read_24_bits D u s H.LTC2946_POWER_MSB2_REG w).2.1 : ℚ) := by
  have e12 : ∀ reg, LTC2946_read_12_bits D u (EnableLegacy (EnableConversion s false) legacy)
      reg w = LTC2946_read_12_bits D u s reg w := fun _ => rfl
  have e24 : ∀ reg, LTC2946_read_24_bits D u (EnableLegacy (EnableConversion s false) legacy)
      reg w = LTC2946_read_24_bits D u s reg w := fun _ => rfl
  refine ⟨?_, ?_, ?_⟩
  · rw [ReadVIN_continuous H binary32 D u fuel
      (EnableLegacy (EnableConversion s false) legacy) w hmode, e12]
    simp only [EnableLegacy, EnableConversion, Option.map_some', Bool.false_eq_true, if_false]
    exact congrArg some (ofNat_code12 D u s _ w)
  · rw [ReadCurrent_continuous H binary32 D u fuel
      (EnableLegacy (EnableConversion s false) legacy) w hmode, e12]
    simp only [EnableLegacy, EnableConversion, Option.map_some', Bool.false_eq_true, if_false]
    exact congrArg some (ofNat_code12 D u s _ w)
  · rw [ReadPower_continuous H binary32 D u
      (EnableLegacy (EnableConversion s false) legacy) w hmode, e24]
    simp only [EnableLegacy, EnableConversion, Bool.false_eq_true, if_false]
    exact ofNat_code24 D u s _ w


/-- C7 at a concrete input: the scenario registers give 100, 200 and `0x010203`. -/
theorem raw_policy_returns_code_witness :
    (ReadVIN scenarioHeader binary32 regFileDevice scenarioUninit 0
        (EnableLegacy (EnableConversion scenarioDriver false) true) scenarioWorld).map Prod.fst
      = some (Binary32.finite 100) ∧
    (ReadCurrent scenarioHeader binary32 regFileDevice scenarioUninit 0
        (EnableLegacy (EnableConversion scenarioDriver false) true) scenarioWorld).map Prod.fst
      = some (Binary32.finite 200) ∧
    (ReadPower scenarioHeader binary32 regFileDevice scenarioUninit
        (EnableLegacy (EnableConversion scenarioDriver false) true) scenarioWorld).1
      = Binary32.finite 66051 := by
  have h := raw_policy_returns_code scenarioHeader regFileDevice scenarioUninit 0 scenarioDriver
    scenarioWorld true rfl
  have c1 : (LTC2946_read_12_bits regFileDevice scenarioUninit scenarioDriver
      scenarioHeader.LTC2946_VIN_MSB_REG scenarioWorld).2.1 = 100 := by decide
  have c2 : (LTC2946_read_12_bits regFileDevice scenarioUninit scenarioDriver
      scenarioHeader.LTC2946_DELTA_SENSE_MSB_REG scenarioWorld).2.1 = 200 := by decide
  have c3 : (LTC2946_read_24_bits regFileDevice scenarioUninit scenarioDriver
      scenarioHeader.LTC2946_POWER_MSB2_REG scenarioWorld).2.1 = 66051 := by decide
  rw [c1, c2, c3] at h
  simpa using h

theorem mul_finite (x y : ℚ) :
    Binary32.mul (Binary32.finite x) (Binary32.finite y) = Binary32.round (x * y) := rfl

/-- C8: under the calibrated policy in continuous mode each read returns the `float` product of
its code (converted without rounding) and its own quantity's constant, for every constant
(zero, negative, non-finite alike); every setter stores the constant it is given unchanged. -/
theorem calibrated_policy_scales {δ : Type} (H : Header Binary32) (D : Device δ) (u : Uninit)
    (fuel : Nat) (s : Driver Binary32) (w : World δ) (cv ci cp : Binary32)
    (hmode : s.LTC2946_mode = 0) :
    (ReadVIN H binary32 D u fuel (calibrated s cv ci cp) w).map Prod.fst
      = some (Binary32.mul
          (Binary32.finite ((LTC2946_read_12_bits D u s H.LTC2946_VIN_MSB_REG w).2.1 : ℚ)) cv) ∧
    (ReadCurrent H binary32 D u fuel (calibrated s cv ci cp) w).map Prod.fst
      = some (Binary32.mul
          (Binary32.finite
            ((LTC2946_read_12_bits D u s H.LTC2946_DELTA_SENSE_MSB_REG w).2.1 : ℚ)) ci) ∧
    (ReadPower H binary32 D u (calibrated s cv ci cp) w).1
      = Binary32.mul
          (Binary32.finite ((LTC2946_read_24_bits D u s H.LTC2946_POWER_MSB2_REG w).2.1 : ℚ))
          cp ∧
    (SetVINConst s cv).VIN_CONST = cv ∧
    (SetAmperageConst s ci).CURRENT_CONST = ci ∧
    (SetPowerConst s cp).POWER_CONST = cp ∧
    (calibrated s cv ci cp).VIN_CONST = cv ∧
    (calibrated s cv ci cp).CURRENT_CONST = ci ∧
    (calibrated s cv ci cp).POWER_CONST = cp := by
  have e12 : ∀ reg, LTC2946_read_12_bits D u (calibrated s cv ci cp) reg w
      = LTC2946_read_12_bits D u s reg w := fun _ => rfl
  have e24 : ∀ reg, LTC2946_read_24_bits D u (calibrated s cv ci cp) reg w
      = LTC2946_read_24_bits D u s reg w := fun _ => rfl
  refine ⟨?_, ?_, ?_, rfl, rfl, rfl, rfl, rfl, rfl⟩
  · rw [ReadVIN_continuous H binary32 D u fuel (calibrated s cv ci cp) w hmode, e12,
      ← ofNat_code12 D u s _ w]
    rfl
  · rw [ReadCurrent_continuous H binary32 D u fuel (calibrated s cv ci cp) w hmode, e12,
      ← ofNat_code12 D u s _ w]
    rfl
  · rw [ReadPower_continuous H binary32 D u (calibrated s cv ci cp) w hmode, e24,
      ← ofNat_code24 D u s _ w]
    rfl


theorem round_zero : Binary32.round 0 = Binary32.finite 0 := by
  simp [Binary32.round, roundHalfEven]

/-- C8 at a concrete input: constants `-1.5`, `0` and `0.25` on the codes 100, 200 and 66051
give `-150`, `0` and `16512.75`. -/
theorem calibrated_policy_scales_witness :
    (ReadVIN scenarioHeader binary32 regFileDevice scenarioUninit 0
        (calibrated scenarioDriver (Binary32.finite (-3 / 2)) (Binary32.finite 0)
          (Binary32.finite (1 / 4))) scenarioWorld).map Prod.fst
      = some (Binary32.finite (-150)) ∧
    (ReadCurrent scenarioHeader binary32 regFileDevice scenarioUninit 0
        (calibrated scenarioDriver (Binary32.finite (-3 / 2)) (Binary32.finite 0)
          (Binary32.finite (1 / 4))) scenarioWorld).map Prod.fst
      = some (Binary32.finite 0) ∧
    (ReadPower scenarioHeader binary32 regFileDevice scenarioUninit
        (calibrated scenarioDriver (Binary32.finite (-3 / 2)) (Binary32.finite 0)
          (Binary32.finite (1 / 4))) scenarioWorld).1
      = Binary32.finite (66051 / 4) := by
  have h := calibrated_policy_scales scenarioHeader regFileDevice scenarioUninit 0
    scenarioDriver scenarioWorld (Binary32.finite (-3 / 2)) (Binary32.finite 0)
    (Binary32.finite (1 / 4)) rfl
  have c1 : (LTC2946_read_12_bits regFileDevice scenarioUninit scenarioDriver
      scenarioHeader.LTC2946_VIN_MSB_REG scenarioWorld).2.1 = 100 := by decide
  have c2 : (LTC2946_read_12_bits regFileDevice scenarioUninit scenarioDriver
      scenarioHeader.LTC2946_DELTA_SENSE_MSB_REG scenarioWorld).2.1 = 200 := by decide
  have c3 : (LTC2946_read_24_bits regFileDevice scenarioUninit scenarioDriver
      scenarioHeader.LTC2946_POWER_MSB2_REG scenarioWorld).2.1 = 66051 := by decide
  have r1 : Binary32.round (100 * (-3 / 2)) = Binary32.finite (-150) := by
    rw [round_eq (100 * (-3 / 2)) 7 (-9830400) (by norm_num) (by norm_num [abs_of_neg])
      (by norm_num [abs_of_neg]) (by norm_num [abs_lt]) (by norm_num [abs_of_neg])]
    norm_num
  have r3 : Binary32.round (66051 * (1 / 4)) = Binary32.finite (66051 / 4) := by
    rw [round_eq (66051 * (1 / 4)) 14 8454528 (by norm_num) (by norm_num [abs_of_pos])
      (by norm_num [abs_of_pos]) (by norm_num [abs_lt]) (by norm_num [abs_of_pos])]
    norm_num
  rw [c1, c2, c3] at h
  simp only [Nat.cast_ofNat, mul_finite, mul_zero, round_zero, r1, r3] at h
  exact ⟨h.1, h.2.1, h.2.2.1⟩

theorem div_finite (x y : ℚ) (hy : y ≠ 0) :
    Binary32.div (Binary32.finite x) (Binary32.finite y) = Binary32.round (x / y) := by
  simp [Binary32.div, hy]

theorem round_vin_lsb :
    Binary32.round (256 / 10000) = Binary32.finite (13743895 / 536870912) := by
  rw [round_eq (256 / 10000) (-6) 13743895 (by norm_num) (by norm_num [abs_of_pos])
    (by norm_num [abs_of_pos]) (by norm_num [abs_lt]) (by norm_num [abs_of_pos])]
  norm_num

theorem round_two_56 : Binary32.round (256 / 100) = Binary32.finite (5368709 / 2097152) := by
  rw [round_eq (256 / 100) 1 10737418 (by norm_num) (by norm_num [abs_of_pos])
    (by norm_num [abs_of_pos]) (by norm_num [abs_lt]) (by norm_num [abs_of_pos])]
  norm_num

theorem round_vin_product :
    Binary32.round (100 * (13743895 / 536870912)) = Binary32.finite (5368709 / 2097152) := by
  rw [round_eq (100 * (13743895 / 536870912)) 1 10737418 (by norm_num)
    (by norm_num [abs_of_pos]) (by norm_num [abs_of_pos]) (by norm_num [abs_lt])
    (by norm_num [abs_of_pos])]
  norm_num

theorem round_sense_lsb :
    Binary32.round (5 / 10000) = Binary32.finite (8589935 / 17179869184) := by
  rw [round_eq (5 / 10000) (-11) 8589935 (by norm_num) (by norm_num [abs_of_pos])
    (by norm_num [abs_of_pos]) (by norm_num [abs_lt]) (by norm_num [abs_of_pos])]
  norm_num

theorem round_resistor :
    Binary32.round (1 / 100) = Binary32.finite (5368709 / 536870912) := by
  rw [round_eq (1 / 100) (-7) 10737418 (by norm_num) (by norm_num [abs_of_pos])
    (by norm_num [abs_of_pos]) (by norm_num [abs_lt]) (by norm_num [abs_of_pos])]
  norm_num

theorem round_sense_product :
    Binary32.round (200 * (8589935 / 17179869184))
      = Binary32.finite (13421773 / 134217728) := by
  rw [round_eq (200 * (8589935 / 17179869184)) (-4) 13421773 (by norm_num)
    (by norm_num [abs_of_pos]) (by norm_num [abs_of_pos]) (by norm_num [abs_lt])
    (by norm_num [abs_of_pos])]
  norm_num

theorem round_current_quotient :
    Binary32.round (13421773 / 134217728 / (5368709 / 536870912)) = Binary32.finite 10 := by
  rw [round_eq (13421773 / 134217728 / (5368709 / 536870912)) 3 10485760 (by norm_num)
    (by norm_num [abs_of_pos]) (by norm_num [abs_of_pos]) (by norm_num [abs_lt])
    (by norm_num [abs_of_pos])]
  norm_num


/-- C9: under the datasheet policy in continuous mode `ReadVIN` returns the `float` product of
the 12-bit code and `LTC2946_VIN_lsb`; with the lsb 25.6 mV per code (the `float` literal
`0.0256`) and code 100 the result is the `float` nearest 2.56. -/
theorem datasheet_voltage {δ : Type} (H : Header Binary32) (D : Device δ) (u : Uninit)
    (fuel : Nat) (s : Driver Binary32) (w : World δ) (hmode : s.LTC2946_mode = 0) :
    (ReadVIN H binary32 D u fuel (EnableLegacy (EnableConversion s true) true) w).map Prod.fst
      = some (Binary32.mul
          (Binary32.finite ((LTC2946_read_12_bits D u s H.LTC2946_VIN_MSB_REG w).2.1 : ℚ))
          H.LTC2946_VIN_lsb) ∧
    (H.LTC2946_VIN_lsb = Binary32.round (256 / 10000) →
      (LTC2946_read_12_bits D u s H.LTC2946_VIN_MSB_REG w).2.1 = 100 →
      (ReadVIN H binary32 D u fuel (EnableLegacy (EnableConversion s true) true) w).map
          Prod.fst
        = some (Binary32.round (256 / 100))) := by
  have e12 : ∀ reg, LTC2946_read_12_bits D u (EnableLegacy (EnableConversion s true) true) reg w
      = LTC2946_read_12_bits D u s reg w := fun _ => rfl
  have main : (ReadVIN H binary32 D u fuel (EnableLegacy (EnableConversion s true) true) w).map
      Prod.fst = some (Binary32.mul
          (Binary32.finite ((LTC2946_read_12_bits D u s H.LTC2946_VIN_MSB_REG w).2.1 : ℚ))
          H.LTC2946_VIN_lsb) := by
    rw [ReadVIN_continuous H binary32 D u fuel (EnableLegacy (EnableConversion s true) true) w
      hmode, e12, ← ofNat_code12 D u s _ w]
    rfl
  refine ⟨main, ?_⟩
  intro hlsb hcode
  rw [main, hlsb, hcode, round_vin_lsb, round_two_56, Nat.cast_ofNat, mul_finite,
    round_vin_product]

/-- C9 at a concrete input: the scenario of the specification; the `float` nearest 2.56 is
`5368709 / 2^21`. -/
theorem datasheet_voltage_witness :
    (ReadVIN scenarioHeader binary32 regFileDevice scenarioUninit 0
        (EnableLegacy (EnableConversion scenarioDriver true) true) scenarioWorld).map Prod.fst
      = some (Binary32.round (256 / 100)) ∧
    Binary32.round (256 / 100) = Binary32.finite (5368709 / 2097152) :=
  ⟨(datasheet_voltage scenarioHeader regFileDevice scenarioUninit 0 scenarioDriver scenarioWorld
      rfl).2 rfl (by decide), round_two_56⟩

/-- C10: under the datasheet policy in continuous mode `ReadCurrent` returns
`(code * LTC2946_DELTA_SENSE_lsb) / resistor`, the product rounded first and then the quotient,
for every code and every resistor value; with the lsb 0.5 mV per code, a resistor of 0.01 ohm
(both as `float` literals) and code 200 the result is exactly 10. -/
theorem datasheet_current {δ : Type} (H : Header Binary32) (D : Device δ) (u : Uninit)
    (fuel : Nat) (s : Driver Binary32) (w : World δ) (hmode : s.LTC2946_mode = 0) :
    (ReadCurrent H binary32 D u fuel (EnableLegacy (EnableConversion s true) true) w).map
        Prod.fst
      = some (Binary32.div
          (Binary32.mul
            (Binary32.finite
              ((LTC2946_read_12_bits D u s H.LTC2946_DELTA_SENSE_MSB_REG w).2.1 : ℚ))
            H.LTC2946_DELTA_SENSE_lsb)
          H.resistor) ∧
    (H.LTC2946_DELTA_SENSE_lsb = Binary32.round (5 / 10000) →
      H.resistor = Binary32.round (1 / 100) →
      (LTC2946_read_12_bits D u s H.LTC2946_DELTA_SENSE_MSB_REG w).2.1 = 200 →
      (ReadCurrent H binary32 D u fuel (EnableLegacy (EnableConversion s true) true) w).map
          Prod.fst
        = some (Binary32.finite 10)) := by
  have e12 : ∀ reg, LTC2946_read_12_bits D u (EnableLegacy (EnableConversion s true) true) reg w
      = LTC2946_read_12_bits D u s reg w := fun _ => rfl
  have main : (ReadCurrent H binary32 D u fuel (EnableLegacy (EnableConversion s true) true)
      w).map Prod.fst = some (Binary32.div
          (Binary32.mul
            (Binary32.finite
              ((LTC2946_read_12_bits D u s H.LTC2946_DELTA_SENSE_MSB_REG w).2.1 : ℚ))
            H.LTC2946_DELTA_SENSE_lsb)
          H.resistor) := by
    rw [ReadCurrent_continuous H binary32 D u fuel
      (EnableLegacy (EnableConversion s true) true) w hmode, e12, ← ofNat_code12 D u s _ w]
    rfl
  refine ⟨main, ?_⟩
  intro hlsb hres hcode
  rw [main, hlsb, hres, hcode, round_sense_lsb, round_resistor, Nat.cast_ofNat, mul_finite,
    round_sense_product, div_finite _ _ (by norm_num), round_current_quotient]

/-- C10 at a concrete input: the scenario of the specification. -/
theorem datasheet_current_witness :
    (ReadCurrent scenarioHeader binary32 regFileDevice scenarioUninit 0
        (EnableLegacy (EnableConversion scenarioDriver true) true) scenarioWorld).map Prod.fst
      = some (Binary32.finite 10) :=
  (datasheet_current scenarioHeader regFileDevice scenarioUninit 0 scenarioDriver scenarioWorld
    rfl).2 rfl rfl (by decide)

/-! ## Snapshot requests against the stream device -/

theorem read_stream {F : Type} (u : Uninit) (s : Driver F) (reg busy : Nat) (w : World Stream)
    (hw : s.I2C_WIRE < 4) :
    (LTC2946_read streamDevice u s reg busy w).1
      = (w s.I2C_WIRE).dev.acks (w s.I2C_WIRE).dev.nTx % 256 ∧
    (LTC2946_read streamDevice u s reg busy w).2.1
      = (w s.I2C_WIRE).dev.bytes (w s.I2C_WIRE).dev.nRx % 256 ∧
    ((LTC2946_read streamDevice u s reg busy w).2.2 s.I2C_WIRE).dev
      = { (w s.I2C_WIRE).dev with nTx := (w s.I2C_WIRE).dev.nTx + 1,
                                   nRx := (w s.I2C_WIRE).dev.nRx + 1 } ∧
    ((LTC2946_read streamDevice u s reg busy w).2.2 s.I2C_WIRE).trace
      = (w s.I2C_WIRE).trace ++
        [BusEvent.tx (s.I2C_ADDRESS % 256) [reg % 256] false
           ((w s.I2C_WIRE).dev.acks (w s.I2C_WIRE).dev.nTx % 256),
         BusEvent.rx (s.I2C_ADDRESS % 256) 1
           [(w s.I2C_WIRE).dev.bytes (w s.I2C_WIRE).dev.nRx % 256]] := by
  simp only [LTC2946_read, if_pos hw, TwoWire.beginTransmission, TwoWire.write,
    TwoWire.endTransmission, TwoWire.requestFrom, TwoWire.read, streamDevice,
    Function.update_same, List.nil_append, range_map_one, List.take, List.map, u8, toU8,
    List.append_assoc, List.singleton_append, Nat.add_zero]
  refine ⟨trivial, ?_, trivial, trivial⟩
  omega

theorem write_stream {F : Type} (u : Uninit) (s : Driver F) (reg c : Nat) (w : World Stream)
    (hw : s.I2C_WIRE < 4) :
    (LTC2946_write streamDevice u s reg c w).1
      = (w s.I2C_WIRE).dev.acks (w s.I2C_WIRE).dev.nTx % 256 ∧
    ((LTC2946_write streamDevice u s reg c w).2 s.I2C_WIRE).dev
      = { (w s.I2C_WIRE).dev with nTx := (w s.I2C_WIRE).dev.nTx + 1 } ∧
    ((LTC2946_write streamDevice u s reg c w).2 s.I2C_WIRE).trace
      = (w s.I2C_WIRE).trace ++
        [BusEvent.tx (s.I2C_ADDRESS % 256) [reg % 256, c % 256] false
           ((w s.I2C_WIRE).dev.acks (w s.I2C_WIRE).dev.nTx % 256)] := by
  simp only [LTC2946_write, if_pos hw, TwoWire.beginTransmission, TwoWire.write,
    TwoWire.endTransmission, streamDevice, Function.update_same, List.nil_append, u8,
    List.singleton_append]
  exact ⟨trivial, trivial, trivial⟩

theorem read_12_stream {F : Type} (u : Uninit) (s : Driver F) (reg : Nat) (w : World Stream)
    (hw : s.I2C_WIRE < 4) :
    (LTC2946_read_12_bits streamDevice u s reg w).1
      = (w s.I2C_WIRE).dev.acks (w s.I2C_WIRE).dev.nTx % 256 ∧
    (LTC2946_read_12_bits streamDevice u s reg w).2.1
      = (256 * ((w s.I2C_WIRE).dev.bytes (w s.I2C_WIRE).dev.nRx % 256)
          + (w s.I2C_WIRE).dev.bytes ((w s.I2C_WIRE).dev.nRx + 1) % 256) / 16 ∧
    ((LTC2946_read_12_bits streamDevice u s reg w).2.2 s.I2C_WIRE).trace
      = (w s.I2C_WIRE).trace ++
        [BusEvent.tx (s.I2C_ADDRESS % 256) [reg % 256] false
           ((w s.I2C_WIRE).dev.acks (w s.I2C_WIRE).dev.nTx % 256),
         BusEvent.rx (s.I2C_ADDRESS % 256) 2
           [(w s.I2C_WIRE).dev.bytes (w s.I2C_WIRE).dev.nRx % 256,
            (w s.I2C_WIRE).dev.bytes ((w s.I2C_WIRE).dev.nRx + 1) % 256]] := by
  refine ⟨?_, ?_, ?_⟩
  · simp only [LTC2946_read_12_bits, if_pos hw, TwoWire.beginTransmission, TwoWire.write,
      TwoWire.endTransmission, streamDevice, u8]
  · apply read_12_of_delivered streamDevice u s reg w _ _ hw
    simp only [delivered, TwoWire.beginTransmission, TwoWire.write, TwoWire.endTransmission,
      TwoWire.requestFrom, streamDevice, range_map_two, List.take, List.map, u8, Nat.add_zero]
  · simp only [LTC2946_read_12_bits, if_pos hw, TwoWire.beginTransmission, TwoWire.write,
      TwoWire.endTransmission, TwoWire.requestFrom, TwoWire.read_trace, streamDevice,
      Function.update_same, List.nil_append, range_map_two, List.take, List.map, u8,
      List.append_assoc, List.singleton_append, Nat.add_zero]


section
variable {F : Type} (H : Header F) (u : Uninit)

theorem pollBusy_stream_none_iff (s : Driver F) (hw : s.I2C_WIRE < 4) :
    ∀ (fuel ack busy : Nat) (w : World Stream),
      pollBusy H streamDevice u s fuel ack busy w = none ↔
        ∀ i, i < fuel →
          0x8 &&& ((w s.I2C_WIRE).dev.bytes ((w s.I2C_WIRE).dev.nRx + i) % 256) ≠ 0 := by
  intro fuel
  induction fuel with
  | zero => intro ack busy w; simp [pollBusy]
  | succ n ih =>
    intro ack busy w
    obtain ⟨_, hb, hdev, _⟩ := read_stream u s H.LTC2946_STATUS2_REG busy w hw
    unfold pollBusy
    simp only []
    rw [hb]
    by_cases hset : 0x8 &&& ((w s.I2C_WIRE).dev.bytes (w s.I2C_WIRE).dev.nRx % 256) ≠ 0
    · rw [if_pos hset, ih, hdev]
      simp only []
      constructor
      · intro h i hi
        cases i with
        | zero => simpa using hset
        | succ j =>
          have := h j (by omega)
          rwa [show (w s.I2C_WIRE).dev.nRx + 1 + j = (w s.I2C_WIRE).dev.nRx + (j + 1) by
            omega] at this
      · intro h i hi
        have := h (i + 1) (by omega)
        rwa [show (w s.I2C_WIRE).dev.nRx + (i + 1) = (w s.I2C_WIRE).dev.nRx + 1 + i by
          omega] at this
    · rw [if_neg hset]
      simp only [reduceCtorEq, false_iff, not_forall]
      exact ⟨0, by omega, by simpa using hset⟩

theorem pollBusy_stream_some (s : Driver F) (hw : s.I2C_WIRE < 4) :
    ∀ (k fuel ack busy : Nat) (w : World Stream),
      (∀ i, i < k →
        0x8 &&& ((w s.I2C_WIRE).dev.bytes ((w s.I2C_WIRE).dev.nRx + i) % 256) ≠ 0) →
      0x8 &&& ((w s.I2C_WIRE).dev.bytes ((w s.I2C_WIRE).dev.nRx + k) % 256) = 0 →
      k < fuel →
      ∃ r, pollBusy H streamDevice u s fuel ack busy w = some r ∧
        r.2.1 = (w s.I2C_WIRE).dev.bytes ((w s.I2C_WIRE).dev.nRx + k) % 256 ∧
        (r.2.2 s.I2C_WIRE).dev.acks = (w s.I2C_WIRE).dev.acks ∧
        (r.2.2 s.I2C_WIRE).dev.bytes = (w s.I2C_WIRE).dev.bytes ∧
        (r.2.2 s.I2C_WIRE).dev.nTx = (w s.I2C_WIRE).dev.nTx + (k + 1) ∧
        (r.2.2 s.I2C_WIRE).dev.nRx = (w s.I2C_WIRE).dev.nRx + (k + 1) ∧
        (r.2.2 s.I2C_WIRE).trace = (w s.I2C_WIRE).trace ++
          pollEvents (s.I2C_ADDRESS % 256) (H.LTC2946_STATUS2_REG % 256)
            (w s.I2C_WIRE).dev.acks (w s.I2C_WIRE).dev.bytes
            (w s.I2C_WIRE).dev.nTx (w s.I2C_WIRE).dev.nRx (k + 1) := by
  intro k
  induction k with
  | zero =>
    intro fuel ack busy w _ hclear hfuel
    obtain ⟨n, rfl⟩ : ∃ n, fuel = n + 1 := ⟨fuel - 1, by omega⟩
    obtain ⟨_, hb, hdev, htr⟩ := read_stream u s H.LTC2946_STATUS2_REG busy w hw
    unfold pollBusy
    simp only []
    rw [hb]
    simp only [Nat.add_zero] at hclear
    rw [if_neg (by simpa using hclear)]
    refine ⟨_, rfl, ?_, ?_, ?_, ?_, ?_, ?_⟩
    · simp
    · rw [hdev]
    · rw [hdev]
    · rw [hdev]
    · rw [hdev]
    · rw [htr]
      rfl
  | succ k ih =>
    intro fuel ack busy w hbusy hclear hfuel
    obtain ⟨n, rfl⟩ : ∃ n, fuel = n + 1 := ⟨fuel - 1, by omega⟩
    obtain ⟨_, hb, hdev, htr⟩ := read_stream u s H.LTC2946_STATUS2_REG busy w hw
    have h0 := hbusy 0 (by omega)
    simp only [Nat.add_zero] at h0
    unfold pollBusy
    simp only []
    rw [hb, if_pos h0]
    obtain ⟨r, hr, r1, r2, r3, r4, r5, r6⟩ := ih n
      (ack ||| (LTC2946_read streamDevice u s H.LTC2946_STATUS2_REG busy w).1)
      ((w s.I2C_WIRE).dev.bytes (w s.I2C_WIRE).dev.nRx % 256)
      (LTC2946_read streamDevice u s H.LTC2946_STATUS2_REG busy w).2.2
      (by
        intro i hi
        rw [hdev]
        simp only []
        have := hbusy (i + 1) (by omega)
        rwa [show (w s.I2C_WIRE).dev.nRx + (i + 1) = (w s.I2C_WIRE).dev.nRx + 1 + i by
          omega] at this)
      (by
        rw [hdev]
        simp only []
        rwa [show (w s.I2C_WIRE).dev.nRx + (k + 1) = (w s.I2C_WIRE).dev.nRx + 1 + k by
          omega] at hclear)
      (by omega)
    rw [hdev] at r1 r2 r3 r4 r5 r6
    simp only [] at r1 r2 r3 r4 r5 r6
    refine ⟨r, hr, ?_, r2, r3, ?_, ?_, ?_⟩
    · rw [r1]
      congr 2
      omega
    · rw [r4]; omega
    · rw [r5]; omega
    · rw [r6, htr, List.append_assoc]
      rfl

end


section
variable {δ F : Type} (H : Header F) (A : FloatArith F) (D : Device δ) (u : Uninit)

/-- When the poll loop ends within `fuel` status reads, `pollReach` is the world it ends in. -/
theorem pollReach_of_pollBusy (s : Driver F) :
    ∀ (fuel ack busy : Nat) (w : World δ) (r : Nat × Nat × World δ),
      pollBusy H D u s fuel ack busy w = some r → pollReach H D u s fuel busy w = r.2.2 := by
  intro fuel
  induction fuel with
  | zero => intro ack busy w r h; simp [pollBusy] at h
  | succ n ih =>
    intro ack busy w r h
    unfold pollBusy at h
    unfold pollReach
    simp only [] at h ⊢
    split at h
    · rename_i hset
      rw [if_pos hset]
      exact ih _ _ _ r h
    · rename_i hset
      rw [if_neg hset]
      cases h
      rfl

theorem ReadVIN_snapshot (fuel : Nat) (s : Driver F) (w : World δ)
    (hmode : s.LTC2946_mode = 1) :
    ReadVIN H A D u fuel s w =
      (snapshotRequest H D u fuel s H.LTC2946_VDD H.LTC2946_VIN_MSB_REG 0 w).map fun p =>
        ((if s.use_conversion then
            if s.use_legacy then LTC2946_VIN_code_to_voltage H A p.2.1
            else A.mul (A.ofNat p.2.1) s.VIN_CONST
          else A.ofNat p.2.1),
         { s with I2C_ACK := s.I2C_ACK ||| p.1 }, p.2.2) := by
  unfold ReadVIN
  simp only [hmode, one_ne_zero, if_false, if_true]
  cases snapshotRequest H D u fuel s H.LTC2946_VDD H.LTC2946_VIN_MSB_REG 0 w <;> rfl

theorem ReadCurrent_snapshot (fuel : Nat) (s : Driver F) (w : World δ)
    (hmode : s.LTC2946_mode = 1) :
    ReadCurrent H A D u fuel s w =
      (snapshotRequest H D u fuel s H.LTC2946_DELTA_SENSE H.LTC2946_DELTA_SENSE_MSB_REG 0 w).map
        fun p =>
        ((if s.use_conversion then
            if s.use_legacy then LTC2946_code_to_current H A p.2.1
            else A.mul (A.ofNat p.2.1) s.CURRENT_CONST
          else A.ofNat p.2.1),
         { s with I2C_ACK := s.I2C_ACK ||| p.1 }, p.2.2) := by
  unfold ReadCurrent
  simp only [hmode, one_ne_zero, if_false, if_true]
  cases snapshotRequest H D u fuel s H.LTC2946_DELTA_SENSE H.LTC2946_DELTA_SENSE_MSB_REG 0 w <;>
    rfl

end


section
variable {F : Type} (H : Header F) (A : FloatArith F) (u : Uninit)

theorem pollReach_stream_busy (s : Driver F) (hw : s.I2C_WIRE < 4) :
    ∀ (n busy : Nat) (w : World Stream),
      (∀ i, i < n →
        0x8 &&& ((w s.I2C_WIRE).dev.bytes ((w s.I2C_WIRE).dev.nRx + i) % 256) ≠ 0) →
      (pollReach H streamDevice u s n busy w s.I2C_WIRE).trace = (w s.I2C_WIRE).trace ++
        pollEvents (s.I2C_ADDRESS % 256) (H.LTC2946_STATUS2_REG % 256)
          (w s.I2C_WIRE).dev.acks (w s.I2C_WIRE).dev.bytes
          (w s.I2C_WIRE).dev.nTx (w s.I2C_WIRE).dev.nRx n := by
  intro n
  induction n with
  | zero => intro busy w _; simp [pollReach, pollEvents]
  | succ n ih =>
    intro busy w hbusy
    obtain ⟨_, hb, hdev, htr⟩ := read_stream u s H.LTC2946_STATUS2_REG busy w hw
    have h0 := hbusy 0 (by omega)
    simp only [Nat.add_zero] at h0
    unfold pollReach
    simp only []
    rw [hb, if_pos h0, ih, hdev, htr, List.append_assoc]
    · rfl
    · intro i hi
      rw [hdev]
      simp only []
      have := hbusy (i + 1) (by omega)
      rwa [show (w s.I2C_WIRE).dev.nRx + (i + 1) = (w s.I2C_WIRE).dev.nRx + 1 + i by
        omega] at this

theorem snapshot_stream_none_iff (fuel : Nat) (s : Driver F) (channel reg ack : Nat)
    (w : World Stream) (hw : s.I2C_WIRE < 4) :
    snapshotRequest H streamDevice u fuel s channel reg ack w = none ↔
      ∀ i, i < fuel →
        0x8 &&& ((w s.I2C_WIRE).dev.bytes ((w s.I2C_WIRE).dev.nRx + i) % 256) ≠ 0 := by
  obtain ⟨_, hdev, _⟩ := write_stream u s H.LTC2946_CTRLA_REG
    (u8 (H.LTC2946_CHANNEL_CONFIG_SNAPSHOT ||| channel)) w hw
  have key := pollBusy_stream_none_iff H u s hw fuel
    (ack ||| (LTC2946_write streamDevice u s H.LTC2946_CTRLA_REG
      (u8 (H.LTC2946_CHANNEL_CONFIG_SNAPSHOT ||| channel)) w).1) (u8 u.busy)
    (LTC2946_write streamDevice u s H.LTC2946_CTRLA_REG
      (u8 (H.LTC2946_CHANNEL_CONFIG_SNAPSHOT ||| channel)) w).2
  rw [hdev] at key
  simp only [] at key
  rw [← key]
  unfold snapshotRequest
  simp only []
  cases pollBusy H streamDevice u s fuel
    (ack ||| (LTC2946_write streamDevice u s H.LTC2946_CTRLA_REG
      (u8 (H.LTC2946_CHANNEL_CONFIG_SNAPSHOT ||| channel)) w).1) (u8 u.busy)
    (LTC2946_write streamDevice u s H.LTC2946_CTRLA_REG
      (u8 (H.LTC2946_CHANNEL_CONFIG_SNAPSHOT ||| channel)) w).2 <;> simp

theorem snapshot_stream_some (k fuel : Nat) (s : Driver F) (channel reg ack : Nat)
    (w : World Stream) (hw : s.I2C_WIRE < 4)
    (hbusy : ∀ i, i < k →
      0x8 &&& ((w s.I2C_WIRE).dev.bytes ((w s.I2C_WIRE).dev.nRx + i) % 256) ≠ 0)
    (hclear : 0x8 &&& ((w s.I2C_WIRE).dev.bytes ((w s.I2C_WIRE).dev.nRx + k) % 256) = 0)
    (hfuel : k < fuel) :
    ∃ r, snapshotRequest H streamDevice u fuel s channel reg ack w = some r ∧
      r.2.1 = (256 * ((w s.I2C_WIRE).dev.bytes ((w s.I2C_WIRE).dev.nRx + k + 1) % 256)
        + (w s.I2C_WIRE).dev.bytes ((w s.I2C_WIRE).dev.nRx + k + 2) % 256) / 16 ∧
      (r.2.2 s.I2C_WIRE).trace = (w s.I2C_WIRE).trace ++
        snapshotEvents (s.I2C_ADDRESS % 256) H.LTC2946_CTRLA_REG
          (H.LTC2946_CHANNEL_CONFIG_SNAPSHOT ||| channel) H.LTC2946_STATUS2_REG reg
          (w s.I2C_WIRE).dev k := by
  obtain ⟨_, hdev, htr⟩ := write_stream u s H.LTC2946_CTRLA_REG
    (u8 (H.LTC2946_CHANNEL_CONFIG_SNAPSHOT ||| channel)) w hw
  obtain ⟨p, hp, _, p2, p3, p4, p5, p6⟩ := pollBusy_stream_some H u s hw k fuel
    (ack ||| (LTC2946_write streamDevice u s H.LTC2946_CTRLA_REG
      (u8 (H.LTC2946_CHANNEL_CONFIG_SNAPSHOT ||| channel)) w).1) (u8 u.busy)
    (LTC2946_write streamDevice u s H.LTC2946_CTRLA_REG
      (u8 (H.LTC2946_CHANNEL_CONFIG_SNAPSHOT ||| channel)) w).2
    (by rw [hdev]; exact hbusy) (by rw [hdev]; exact hclear) hfuel
  rw [hdev] at p2 p3 p4 p5 p6
  simp only [] at p2 p3 p4 p5 p6
  obtain ⟨_, q2, q3⟩ := read_12_stream u s reg p.2.2 hw
  refine ⟨_, by unfold snapshotRequest; simp only []; rw [hp], ?_, ?_⟩
  · simp only []
    rw [q2, p3, p5]
    rfl
  · simp only []
    rw [q3, p6, htr, p2, p3, p4, p5]
    simp only [snapshotEvents, u8, Nat.mod_mod, List.append_assoc, List.singleton_append,
      List.cons_append, List.nil_append]
    rw [show (w s.I2C_WIRE).dev.nTx + 1 + (k + 1) = (w s.I2C_WIRE).dev.nTx + k + 2 by omega,
      show (w s.I2C_WIRE).dev.nRx + (k + 1) = (w s.I2C_WIRE).dev.nRx + k + 1 by omega]

end


/-- C11: in snapshot mode, on a driver attached to one of the four buses and against any streams
of status codes and status bytes, `ReadVIN` and `ReadCurrent` put on the bus the trigger write
to the control register, then status reads up to and including the first status byte whose
busy bit is clear (whatever the status codes), then one 12-bit read of the measurement
register, and return; they fail to return within `fuel` status reads exactly when the first
`fuel` status bytes all have the busy bit set, so when every status byte has it set they return
for no bound, and after any `n` status reads the loop is still running. -/
theorem snapshot_read_polls_until_clear {F : Type} (H : Header F) (A : FloatArith F)
    (u : Uninit) (s : Driver F) (w : World Stream) (hw : s.I2C_WIRE < 4)
    (hmode : s.LTC2946_mode = 1) :
    (∀ k fuel, (∀ i, i < k → busyAt (w s.I2C_WIRE).dev i) → ¬ busyAt (w s.I2C_WIRE).dev k →
      k < fuel →
      (∃ r, ReadVIN H A streamDevice u fuel s w = some r ∧
        (r.2.2 s.I2C_WIRE).trace = (w s.I2C_WIRE).trace ++
          snapshotEvents (s.I2C_ADDRESS % 256) H.LTC2946_CTRLA_REG
            (H.LTC2946_CHANNEL_CONFIG_SNAPSHOT ||| H.LTC2946_VDD) H.LTC2946_STATUS2_REG
            H.LTC2946_VIN_MSB_REG (w s.I2C_WIRE).dev k) ∧
      (∃ r, ReadCurrent H A streamDevice u fuel s w = some r ∧
        (r.2.2 s.I2C_WIRE).trace = (w s.I2C_WIRE).trace ++
          snapshotEvents (s.I2C_ADDRESS % 256) H.LTC2946_CTRLA_REG
            (H.LTC2946_CHANNEL_CONFIG_SNAPSHOT ||| H.LTC2946_DELTA_SENSE) H.LTC2946_STATUS2_REG
            H.LTC2946_DELTA_SENSE_MSB_REG (w s.I2C_WIRE).dev k)) ∧
    (∀ fuel,
      (ReadVIN H A streamDevice u fuel s w = none ↔
        ∀ i, i < fuel → busyAt (w s.I2C_WIRE).dev i) ∧
      (ReadCurrent H A streamDevice u fuel s w = none ↔
        ∀ i, i < fuel → busyAt (w s.I2C_WIRE).dev i)) ∧
    ((∀ i, busyAt (w s.I2C_WIRE).dev i) → ∀ n,
      ReadVIN H A streamDevice u n s w = none ∧
      ReadCurrent H A streamDevice u n s w = none ∧
      (pollReach H streamDevice u s n (u8 u.busy)
          (LTC2946_write streamDevice u s H.LTC2946_CTRLA_REG
            (u8 (H.LTC2946_CHANNEL_CONFIG_SNAPSHOT ||| H.LTC2946_VDD)) w).2 s.I2C_WIRE).trace
        = (w s.I2C_WIRE).trace ++
          BusEvent.tx (s.I2C_ADDRESS % 256)
            [H.LTC2946_CTRLA_REG % 256,
             (H.LTC2946_CHANNEL_CONFIG_SNAPSHOT ||| H.LTC2946_VDD) % 256] false
            ((w s.I2C_WIRE).dev.acks (w s.I2C_WIRE).dev.nTx % 256) ::
          pollEvents (s.I2C_ADDRESS % 256) (H.LTC2946_STATUS2_REG % 256)
            (w s.I2C_WIRE).dev.acks (w s.I2C_WIRE).dev.bytes
            ((w s.I2C_WIRE).dev.nTx + 1) (w s.I2C_WIRE).dev.nRx n ∧
      (pollReach H streamDevice u s n (u8 u.busy)
          (LTC2946_write streamDevice u s H.LTC2946_CTRLA_REG
            (u8 (H.LTC2946_CHANNEL_CONFIG_SNAPSHOT ||| H.LTC2946_DELTA_SENSE)) w).2
          s.I2C_WIRE).trace
        = (w s.I2C_WIRE).trace ++
          BusEvent.tx (s.I2C_ADDRESS % 256)
            [H.LTC2946_CTRLA_REG % 256,
             (H.LTC2946_CHANNEL_CONFIG_SNAPSHOT ||| H.LTC2946_DELTA_SENSE) % 256] false
            ((w s.I2C_WIRE).dev.acks (w s.I2C_WIRE).dev.nTx % 256) ::
          pollEvents (s.I2C_ADDRESS % 256) (H.LTC2946_STATUS2_REG % 256)
            (w s.I2C_WIRE).dev.acks (w s.I2C_WIRE).dev.bytes
            ((w s.I2C_WIRE).dev.nTx + 1) (w s.I2C_WIRE).dev.nRx n) := by
  have hnone : ∀ fuel,
      (ReadVIN H A streamDevice u fuel s w = none ↔
        ∀ i, i < fuel → busyAt (w s.I2C_WIRE).dev i) ∧
      (ReadCurrent H A streamDevice u fuel s w = none ↔
        ∀ i, i < fuel → busyAt (w s.I2C_WIRE).dev i) := by
    intro fuel
    rw [ReadVIN_snapshot H A streamDevice u fuel s w hmode,
      ReadCurrent_snapshot H A streamDevice u fuel s w hmode, Option.map_eq_none',
      Option.map_eq_none']
    exact ⟨snapshot_stream_none_iff H u fuel s _ _ 0 w hw,
      snapshot_stream_none_iff H u fuel s _ _ 0 w hw⟩
  have hreach : ∀ (channel n : Nat), (∀ i, busyAt (w s.I2C_WIRE).dev i) →
      (pollReach H streamDevice u s n (u8 u.busy)
          (LTC2946_write streamDevice u s H.LTC2946_CTRLA_REG
            (u8 (H.LTC2946_CHANNEL_CONFIG_SNAPSHOT ||| channel)) w).2 s.I2C_WIRE).trace
        = (w s.I2C_WIRE).trace ++
          BusEvent.tx (s.I2C_ADDRESS % 256)
            [H.LTC2946_CTRLA_REG % 256,
             (H.LTC2946_CHANNEL_CONFIG_SNAPSHOT ||| channel) % 256] false
            ((w s.I2C_WIRE).dev.acks (w s.I2C_WIRE).dev.nTx % 256) ::
          pollEvents (s.I2C_ADDRESS % 256) (H.LTC2946_STATUS2_REG % 256)
            (w s.I2C_WIRE).dev.acks (w s.I2C_WIRE).dev.bytes
            ((w s.I2C_WIRE).dev.nTx + 1) (w s.I2C_WIRE).dev.nRx n := by
    intro channel n hall
    obtain ⟨_, hdev, htr⟩ := write_stream u s H.LTC2946_CTRLA_REG
      (u8 (H.LTC2946_CHANNEL_CONFIG_SNAPSHOT ||| channel)) w hw
    rw [pollReach_stream_busy H u s hw n (u8 u.busy) _
      (by rw [hdev]; exact fun i _ => hall i), htr, hdev]
    simp only [u8, Nat.mod_mod, List.append_assoc, List.singleton_append]
  refine ⟨?_, hnone, ?_⟩
  · intro k fuel hbusy hclear hfuel
    have hclear0 : 0x8 &&& ((w s.I2C_WIRE).dev.bytes ((w s.I2C_WIRE).dev.nRx + k) % 256) = 0 :=
      not_not.mp hclear
    obtain ⟨p, hp, _, hpt⟩ := snapshot_stream_some H u k fuel s H.LTC2946_VDD
      H.LTC2946_VIN_MSB_REG 0 w hw hbusy hclear0 hfuel
    obtain ⟨q, hq, _, hqt⟩ := snapshot_stream_some H u k fuel s H.LTC2946_DELTA_SENSE
      H.LTC2946_DELTA_SENSE_MSB_REG 0 w hw hbusy hclear0 hfuel
    obtain ⟨rv, hrv, erv⟩ : ∃ r, ReadVIN H A streamDevice u fuel s w = some r ∧
        r.2.2 = p.2.2 := by
      rw [ReadVIN_snapshot H A streamDevice u fuel s w hmode, hp]
      exact ⟨_, rfl, rfl⟩
    obtain ⟨rc, hrc, erc⟩ : ∃ r, ReadCurrent H A streamDevice u fuel s w = some r ∧
        r.2.2 = q.2.2 := by
      rw [ReadCurrent_snapshot H A streamDevice u fuel s w hmode, hq]
      exact ⟨_, rfl, rfl⟩
    exact ⟨⟨rv, hrv, by rw [erv]; exact hpt⟩, ⟨rc, hrc, by rw [erc]; exact hqt⟩⟩
  · intro hall n
    exact ⟨(hnone n).1.mpr fun i _ => hall i, (hnone n).2.mpr fun i _ => hall i,
      hreach _ n hall, hreach _ n hall⟩

/-- C11 at a concrete input: three busy status bytes, then a ready one; with a bound of 10 status
reads `ReadVIN` returns after the trigger write, four status reads and the 12-bit read, and
with a bound of 3 it has not returned. -/
theorem snapshot_read_polls_until_clear_witness :
    (∃ r, ReadVIN scenarioHeader binary32 streamDevice scenarioUninit 10
        { scenarioDriver with LTC2946_mode := 1 } exampleStreams = some r ∧
      (r.2.2 0).trace = [] ++
        [BusEvent.tx 0x6A [0x00, 0x88] false 0,
         BusEvent.tx 0x6A [0x81] false 0, BusEvent.rx 0x6A 1 [0x08],
         BusEvent.tx 0x6A [0x81] false 4, BusEvent.rx 0x6A 1 [0x08],
         BusEvent.tx 0x6A [0x81] false 0, BusEvent.rx 0x6A 1 [0x08],
         BusEvent.tx 0x6A [0x81] false 0, BusEvent.rx 0x6A 1 [0x00],
         BusEvent.tx 0x6A [0x1E] false 0, BusEvent.rx 0x6A 2 [0x06, 0x40]]) ∧
    ReadVIN scenarioHeader binary32 streamDevice scenarioUninit 3
        { scenarioDriver with LTC2946_mode := 1 } exampleStreams = none :=
  have h := snapshot_read_polls_until_clear scenarioHeader binary32 scenarioUninit
    { scenarioDriver with LTC2946_mode := 1 } exampleStreams (by decide) rfl
  ⟨(h.1 3 10 (by decide) (by decide) (by decide)).1, (h.2.1 3).1.mpr (by decide)⟩


/-! ## Power read path and frame of the reads -/

/-- What the 24-bit read puts on the bus. -/
theorem read_24_trace {δ F : Type} (D : Device δ) (u : Uninit) (s : Driver F) (reg : Nat)
    (w : World δ) (hw : s.I2C_WIRE < 4) :
    ((LTC2946_read_24_bits D u s reg w).2.2 s.I2C_WIRE).trace = (w s.I2C_WIRE).trace ++
      [BusEvent.tx (s.I2C_ADDRESS % 256) [reg % 256] false (LTC2946_read_24_bits D u s reg w).1,
       BusEvent.rx (s.I2C_ADDRESS % 256) 3 (delivered D s reg 3 w)] := by
  simp [LTC2946_read_24_bits, hw, delivered, TwoWire.read_trace, TwoWire.requestFrom,
    TwoWire.endTransmission, TwoWire.write, TwoWire.beginTransmission, u8]

/-- C12: with `EnableConversion(true)` and `EnableLegacy(true)` `ReadPower` returns `0.0`,
whatever the device delivers, whatever the power constant and in every acquisition mode; in
continuous mode on a driver attached to one of the four buses it still makes the 24-bit read of
the power register (one address write and one three-byte request on the bus) and ORs the ack of
that read into the error flag. -/
theorem power_datasheet_not_wired {δ : Type} (H : Header Binary32) (D : Device δ) (u : Uninit)
    (s : Driver Binary32) (w : World δ) (cp : Binary32) (hmode : s.LTC2946_mode = 0)
    (hw : s.I2C_WIRE < 4) :
    (ReadPower H binary32 D u (EnableLegacy (EnableConversion (SetPowerConst s cp) true) true)
        w).1 = Binary32.finite 0 ∧
    (∀ mode, (ReadPower H binary32 D u
        (EnableLegacy (EnableConversion
          (SetPowerConst { s with LTC2946_mode := mode } cp) true) true) w).1
      = Binary32.finite 0) ∧
    (ReadPower H binary32 D u (EnableLegacy (EnableConversion (SetPowerConst s cp) true) true)
        w).2.2 = (LTC2946_read_24_bits D u s H.LTC2946_POWER_MSB2_REG w).2.2 ∧
    ((ReadPower H binary32 D u (EnableLegacy (EnableConversion (SetPowerConst s cp) true) true)
        w).2.2 s.I2C_WIRE).trace = (w s.I2C_WIRE).trace ++
      [BusEvent.tx (s.I2C_ADDRESS % 256) [H.LTC2946_POWER_MSB2_REG % 256] false
         (LTC2946_read_24_bits D u s H.LTC2946_POWER_MSB2_REG w).1,
       BusEvent.rx (s.I2C_ADDRESS % 256) 3 (delivered D s H.LTC2946_POWER_MSB2_REG 3 w)] ∧
    (ReadPower H binary32 D u (EnableLegacy (EnableConversion (SetPowerConst s cp) true) true)
        w).2.1.I2C_ACK
      = s.I2C_ACK ||| (LTC2946_read_24_bits D u s H.LTC2946_POWER_MSB2_REG w).1 := by
  have e24 : ∀ reg, LTC2946_read_24_bits D u
      (EnableLegacy (EnableConversion (SetPowerConst s cp) true) true) reg w
      = LTC2946_read_24_bits D u s reg w := fun _ => rfl
  have hzero : ∀ mode, (ReadPower H binary32 D u
        (EnableLegacy (EnableConversion
          (SetPowerConst { s with LTC2946_mode := mode } cp) true) true) w).1
      = Binary32.finite 0 := by
    intro mode
    simp only [ReadPower, EnableLegacy, EnableConversion, SetPowerConst, if_true]
    exact round_natCast 0 (by norm_num)
  have hcont := ReadPower_continuous H binary32 D u
    (EnableLegacy (EnableConversion (SetPowerConst s cp) true) true) w hmode
  rw [e24] at hcont
  refine ⟨?_, hzero, ?_, ?_, ?_⟩
  · exact hzero s.LTC2946_mode
  · rw [hcont]
  · rw [hcont]
    exact read_24_trace D u s _ w hw
  · rw [hcont]
    rfl

/-- C12 at a concrete input: the scenario register file holds the power code `0x010203` and the
power constant is 7; the result is `0.0` and the error flag stays clear. -/
theorem power_datasheet_not_wired_witness :
    (ReadPower scenarioHeader binary32 regFileDevice scenarioUninit
        (EnableLegacy (EnableConversion (SetPowerConst scenarioDriver (Binary32.finite 7)) true)
          true) scenarioWorld).1 = Binary32.finite 0 ∧
    (LTC2946_read_24_bits regFileDevice scenarioUninit scenarioDriver 0x05 scenarioWorld).2.1
      = 0x010203 ∧
    ((ReadPower scenarioHeader binary32 regFileDevice scenarioUninit
        (EnableLegacy (EnableConversion (SetPowerConst scenarioDriver (Binary32.finite 7)) true)
          true) scenarioWorld).2.2 0).trace
      = [] ++ [BusEvent.tx 0x6A [0x05] false 0, BusEvent.rx 0x6A 3 [0x01, 0x02, 0x03]] :=
  have h := power_datasheet_not_wired scenarioHeader regFileDevice scenarioUninit scenarioDriver
    scenarioWorld (Binary32.finite 7) rfl (by decide)
  ⟨h.1, by decide, h.2.2.2.1⟩

section
variable {δ F : Type} (H : Header F) (A : FloatArith F) (D : Device δ) (u : Uninit)

theorem sameConfig_flag (s : Driver F) (a : Nat) : SameConfig s { s with I2C_ACK := a } :=
  ⟨rfl, rfl, rfl, rfl, rfl, rfl, rfl, rfl⟩

theorem ReadVIN_frame (fuel : Nat) (s : Driver F) (w : World δ) (r : F × Driver F × World δ)
    (h : ReadVIN H A D u fuel s w = some r) : SameConfig s r.2.1 := by
  unfold ReadVIN at h
  simp only [] at h
  split at h
  · cases h
  · cases h
    exact sameConfig_flag s _

theorem ReadCurrent_frame (fuel : Nat) (s : Driver F) (w : World δ)
    (r : F × Driver F × World δ) (h : ReadCurrent H A D u fuel s w = some r) :
    SameConfig s r.2.1 := by
  unfold ReadCurrent at h
  simp only [] at h
  split at h
  · cases h
  · cases h
    exact sameConfig_flag s _

theorem ReadPower_frame (s : Driver F) (w : World δ) :
    SameConfig s (ReadPower H A D u s w).2.1 :=
  sameConfig_flag s _

/-- C13: each of `ReadVIN`, `ReadCurrent` and `ReadPower`, whenever it returns, leaves every
member of the driver other than `I2C_ACK` as it was (bus selector, address, acquisition mode,
the two policy flags, the three scale constants), for every driver state, device and bound on
the busy poll, and whether or not the other reads return; `ReadPower` always returns; in
particular a snapshot read leaves `LTC2946_mode` at 1. -/
theorem reads_change_only_error_flag (s : Driver F) (w : World δ) :
    (∀ fuel rv, ReadVIN H A D u fuel s w = some rv → SameConfig s rv.2.1) ∧
    (∀ fuel rc, ReadCurrent H A D u fuel s w = some rc → SameConfig s rc.2.1) ∧
    SameConfig s (ReadPower H A D u s w).2.1 ∧
    (∀ fuel rv, ReadVIN H A D u fuel s w = some rv →
      s.LTC2946_mode = 1 → rv.2.1.LTC2946_mode = 1) ∧
    (∀ fuel rc, ReadCurrent H A D u fuel s w = some rc →
      s.LTC2946_mode = 1 → rc.2.1.LTC2946_mode = 1) ∧
    (s.LTC2946_mode = 1 → (ReadPower H A D u s w).2.1.LTC2946_mode = 1) := by
  refine ⟨fun fuel rv hv => ReadVIN_frame H A D u fuel s w rv hv,
    fun fuel rc hc => ReadCurrent_frame H A D u fuel s w rc hc,
    ReadPower_frame H A D u s w, ?_, ?_, ?_⟩
  · intro fuel rv hv h1
    exact (ReadVIN_frame H A D u fuel s w rv hv).2.2.1.trans h1
  · intro fuel rc hc h1
    exact (ReadCurrent_frame H A D u fuel s w rc hc).2.2.1.trans h1
  · intro h1
    exact (ReadPower_frame H A D u s w).2.2.1.trans h1

end

/-- C13 at a concrete input: in snapshot mode against the example streams, `ReadVIN` with a bound
of 10 status reads returns with the error flag at 4 and the driver otherwise as it was, still
in snapshot mode; with a bound of 3 `ReadVIN` has not returned, while `ReadPower` returns and
leaves the driver in snapshot mode. -/
theorem reads_change_only_error_flag_witness :
    (∃ rv,
      ReadVIN scenarioHeader binary32 streamDevice scenarioUninit 10
        { scenarioDriver with LTC2946_mode := 1 } exampleStreams = some rv ∧
      rv.2.1.I2C_ACK = 4 ∧ rv.2.1.LTC2946_mode = 1 ∧
      SameConfig { scenarioDriver with LTC2946_mode := 1 } rv.2.1) ∧
    ReadVIN scenarioHeader binary32 streamDevice scenarioUninit 3
      { scenarioDriver with LTC2946_mode := 1 } exampleStreams = none ∧
    (ReadPower scenarioHeader binary32 streamDevice scenarioUninit
      { scenarioDriver with LTC2946_mode := 1 } exampleStreams).2.1.LTC2946_mode = 1 ∧
    SameConfig { scenarioDriver with LTC2946_mode := 1 }
      (ReadPower scenarioHeader binary32 streamDevice scenarioUninit
        { scenarioDriver with LTC2946_mode := 1 } exampleStreams).2.1 := by
  have sv : (ReadVIN scenarioHeader binary32 streamDevice scenarioUninit 10
      { scenarioDriver with LTC2946_mode := 1 } exampleStreams).isSome = true := by rfl
  obtain ⟨rv, hv⟩ := Option.isSome_iff_exists.mp sv
  have hflag : (ReadVIN scenarioHeader binary32 streamDevice scenarioUninit 10
      { scenarioDriver with LTC2946_mode := 1 } exampleStreams).map
      (fun r => r.2.1.I2C_ACK) = some 4 := by rfl
  rw [hv] at hflag
  have h := reads_change_only_error_flag scenarioHeader binary32 streamDevice scenarioUninit
    { scenarioDriver with LTC2946_mode := 1 } exampleStreams
  exact ⟨⟨rv, hv, by simpa using hflag, h.2.2.2.1 10 rv hv rfl, h.1 10 rv hv⟩, by rfl,
    h.2.2.2.2.2 rfl, h.2.2.1⟩

end LTC2946
